import Mathlib

/-!
# Verification of the reconciliation / allocation engine

Shallow embedding, in Lean 4, of the core algorithms of the
payment-reconciliation application (`app.py` and
`journal_generation/journal_builder.py`), together with proofs of the
behavioural claims made by the natural-language specification.

Modelling conventions (used throughout):

* Monetary amounts are rational numbers (`ℚ`).  The Python code computes
  with IEEE doubles; every claim is stated with the 0.01 tolerance the code
  itself uses, and the rational model is exact, so each proved equality
  implies the claim's "within 0.01" form.
* A nullable SQL column of type `Float` is modelled as `Option ℚ`; the code
  reads such columns through `x or 0`, which is modelled explicitly.
* Date strings are modelled by the inductive type `DS`: `DS.missing` stands
  for SQL `NULL` (or the empty string, both falsy in Python), `DS.bad n`
  for a non-empty string on which `datetime.strptime` fails (distinct `n`
  for distinct strings), and `DS.good d` for a string parsing to day
  ordinal `d : ℤ`.  Equality of `DS` values models equality of the
  underlying strings; the stored format is canonical (`dd/mm/yyyy`), so two
  distinct strings never denote the same parsed date.
* Python's `round(x, 2)` is modelled as round-half-to-even on rationals
  (`round2`), matching the documented semantics of `round` on the values
  the code handles.
-/

namespace Reconcile

/-! ## Allocation Engine (`fp_summit_process`, app.py)

The engine receives the client's working rows (`FPWorkingRow`), the stored
per-client original totals (`dataset.original_amounts`), and the uploaded
summit commitments.  It first sums duplicate commitments per client and
drops zero totals, then walks the combined list applying each commitment
proportionally across the client's working rows. -/

/-- A working row (`FPWorkingRow`): only the fields the allocation engine
reads.  `ckey` is `str(row.client_id).strip() if row.client_id else ''`;
`amount` is the row amount, with the code's `row.amount or 0` applied. -/
structure WRow where
  ckey : String
  amount : ℚ
deriving DecidableEq, Repr

/-- Sum of a client's working-row amounts (the code's
`sum((row.amount or 0) for row in working_lookup[oak_id])`, extended to 0
when the client has no rows). -/
def sumFor (k : String) (rows : List WRow) : ℚ :=
  ((rows.filter (fun r => r.ckey == k)).map (fun r => r.amount)).sum

/-- Updating one dict entry: add `v` to the entry when its key is `k`. -/
def updEntry (k : String) (v : ℚ) (p : String × ℚ) : String × ℚ :=
  if p.1 == k then (p.1, p.2 + v) else p

/-- One step of `combined_summit_data`: fold a summit item into the
accumulated per-client totals (a Python dict, modelled as an association
list in first-insertion order). -/
def addItem (acc : List (String × ℚ)) (k : String) (v : ℚ) : List (String × ℚ) :=
  if acc.any (fun p => p.1 == k) then acc.map (updEntry k v)
  else acc ++ [(k, v)]

/-- The `for item in summit_data` accumulation loop; items with an empty
`oak_id` are skipped. -/
def combineAux : List (String × ℚ) → List (String × ℚ) → List (String × ℚ)
  | acc, [] => acc
  | acc, (k, v) :: rest => combineAux (if k == "" then acc else addItem acc k v) rest

/-- `processed_summit_data`: duplicate clients summed, zero totals dropped
(`if total_amount != 0`). -/
def combineSummit (items : List (String × ℚ)) : List (String × ℚ) :=
  (combineAux [] items).filter (fun p => !(p.2 == 0))

/-- The sum of all uploaded commitment amounts for one client, before the
engine combines duplicates. -/
def clientBatchTotal (c : String) (items : List (String × ℚ)) : ℚ :=
  ((items.filter (fun p => p.1 == c)).map (fun p => p.2)).sum

/-- Mutable state of the allocation loop: current working rows, the summit
journal rows created so far (client, amount), the unmatched commitment
list, and `matched_count`. -/
structure FPState where
  rows : List WRow
  summitRows : List (String × ℚ)
  unmatched : List (String × ℚ)
  matchedCount : Nat
deriving DecidableEq, Repr

/-- The proportional reduction applied to one working row:
`(row_amount / current_total) * installment` is subtracted when the row
belongs to the client being processed. -/
def reduceRow (oak : String) (T I : ℚ) (r : WRow) : WRow :=
  if r.ckey == oak then { r with amount := r.amount - r.amount / T * I } else r

/-- The body of `for summit_item in processed_summit_data` in
`fp_summit_process`: skip empty ids and non-positive amounts silently;
otherwise apply the commitment proportionally when the client has working
rows, a stored original total at least the commitment, and a positive
current total; otherwise record the commitment as unmatched. -/
def fpStep (origs : List (String × ℚ)) (st : FPState) (item : String × ℚ) : FPState :=
  if item.1 = "" ∨ item.2 ≤ 0 then st
  else
    match origs.lookup item.1 with
    | some orig =>
      if st.rows.filter (fun r => r.ckey == item.1) ≠ [] ∧ item.2 ≤ orig then
        if 0 < sumFor item.1 st.rows then
          { rows := st.rows.map (reduceRow item.1 (sumFor item.1 st.rows) item.2),
            summitRows := st.summitRows ++ [item],
            unmatched := st.unmatched,
            matchedCount := st.matchedCount + 1 }
        else { st with unmatched := st.unmatched ++ [item] }
      else { st with unmatched := st.unmatched ++ [item] }
    | none => { st with unmatched := st.unmatched ++ [item] }

/-- The allocation loop over the combined commitment list. -/
def fpLoop (origs : List (String × ℚ)) (st : FPState) (items : List (String × ℚ)) : FPState :=
  items.foldl (fpStep origs) st

/-- The whole allocation pass of `fp_summit_process`, from the raw summit
upload and the initial working rows. -/
def fpSummit (origs : List (String × ℚ)) (rows0 : List WRow)
    (summit : List (String × ℚ)) : FPState :=
  fpLoop origs ⟨rows0, [], [], 0⟩ (combineSummit summit)

/-! ### Lemmas about the allocation loop -/

lemma reduceRow_ckey (oak : String) (T I : ℚ) (r : WRow) :
    (reduceRow oak T I r).ckey = r.ckey := by
  unfold reduceRow; split <;> rfl

lemma sumFor_nil (k : String) : sumFor k [] = 0 := rfl

lemma sumFor_cons (k : String) (r : WRow) (rs : List WRow) :
    sumFor k (r :: rs) = (if r.ckey = k then r.amount else 0) + sumFor k rs := by
  by_cases h : r.ckey = k
  · simp [sumFor, List.filter_cons, h]
  · simp [sumFor, List.filter_cons, h]

lemma sumFor_map_reduce (oak : String) (T I : ℚ) (rows : List WRow) :
    sumFor oak (rows.map (reduceRow oak T I)) =
      sumFor oak rows - sumFor oak rows / T * I := by
  induction rows with
  | nil => simp [sumFor]
  | cons r rs ih =>
    rw [List.map_cons, sumFor_cons, sumFor_cons, reduceRow_ckey]
    by_cases h : r.ckey = oak
    · have hr : (reduceRow oak T I r).amount = r.amount - r.amount / T * I := by
        simp [reduceRow, h]
      rw [if_pos h, if_pos h, hr, ih]; ring
    · rw [if_neg h, if_neg h, ih]; ring

lemma sumFor_map_reduce_ne {oak c : String} (h : c ≠ oak) (T I : ℚ) (rows : List WRow) :
    sumFor c (rows.map (reduceRow oak T I)) = sumFor c rows := by
  induction rows with
  | nil => rfl
  | cons r rs ih =>
    rw [List.map_cons, sumFor_cons, sumFor_cons, reduceRow_ckey]
    by_cases hc : r.ckey = c
    · have hr : reduceRow oak T I r = r := by
        have : ¬ (r.ckey == oak) = true := by simp [hc, h]
        simp [reduceRow, this]
      rw [hr, ih]
    · rw [if_neg hc, if_neg hc, ih]

/-- A step on a commitment for a different client leaves this client's row
total, summit-journal entries and unmatched entries unchanged. -/
lemma fpStep_ne (origs : List (String × ℚ)) (st : FPState) (item : String × ℚ)
    (c : String) (h : item.1 ≠ c) :
    sumFor c (fpStep origs st item).rows = sumFor c st.rows ∧
    (fpStep origs st item).summitRows.filter (fun p => p.1 == c)
      = st.summitRows.filter (fun p => p.1 == c) ∧
    (fpStep origs st item).unmatched.filter (fun p => p.1 == c)
      = st.unmatched.filter (fun p => p.1 == c) := by
  have hb : (item.1 == c) = false := by simp [h]
  simp only [fpStep]
  split
  · exact ⟨rfl, rfl, rfl⟩
  · rcases hl : origs.lookup item.1 with _ | orig
    · simp only [hl]
      simp [List.filter_append, hb]
    · simp only [hl]
      split
      · split
        · refine ⟨sumFor_map_reduce_ne (fun hc => h hc.symm) _ _ _, ?_, ?_⟩ <;>
            simp [List.filter_append, hb]
        · simp [List.filter_append, hb]
      · simp [List.filter_append, hb]

lemma fpStep_nonpos (origs : List (String × ℚ)) (st : FPState) (item : String × ℚ)
    (h : item.2 ≤ 0) : fpStep origs st item = st := by
  simp only [fpStep]
  rw [if_pos (Or.inr h)]

lemma fpLoop_cons (origs : List (String × ℚ)) (st : FPState) (it : String × ℚ)
    (rest : List (String × ℚ)) :
    fpLoop origs st (it :: rest) = fpLoop origs (fpStep origs st it) rest := rfl

/-- Looping over commitments that include no positive commitment for
client `c` leaves everything about `c` unchanged. -/
lemma fpLoop_pres (origs : List (String × ℚ)) (c : String) :
    ∀ (items : List (String × ℚ)) (st : FPState),
      (∀ it ∈ items, it.1 = c → it.2 ≤ 0) →
      sumFor c (fpLoop origs st items).rows = sumFor c st.rows ∧
      (fpLoop origs st items).summitRows.filter (fun p => p.1 == c)
        = st.summitRows.filter (fun p => p.1 == c) ∧
      (fpLoop origs st items).unmatched.filter (fun p => p.1 == c)
        = st.unmatched.filter (fun p => p.1 == c) := by
  intro items
  induction items with
  | nil => intro st _; exact ⟨rfl, rfl, rfl⟩
  | cons it rest ih =>
    intro st h
    have hrest : ∀ x ∈ rest, x.1 = c → x.2 ≤ 0 := fun x hx => h x (List.mem_cons_of_mem _ hx)
    rw [fpLoop_cons]
    by_cases hc : it.1 = c
    · rw [fpStep_nonpos origs st it (h it (List.mem_cons_self _ _) hc)]
      exact ih st hrest
    · obtain ⟨h1, h2, h3⟩ := fpStep_ne origs st it c hc
      obtain ⟨g1, g2, g3⟩ := ih (fpStep origs st it) hrest
      exact ⟨g1.trans h1, g2.trans h2, g3.trans h3⟩

/-! ### Lemmas about the duplicate-combining pass -/

lemma nodup_append_singleton {α : Type} {l : List α} {a : α}
    (h : l.Nodup) (ha : a ∉ l) : (l ++ [a]).Nodup := by
  rw [List.nodup_append]
  refine ⟨h, List.nodup_singleton a, ?_⟩
  intro x hx hxa
  have hxa' : x = a := by simpa using hxa
  exact ha (hxa' ▸ hx)

lemma updEntry_fst (k : String) (v : ℚ) (p : String × ℚ) :
    (updEntry k v p).1 = p.1 := by
  unfold updEntry; split <;> rfl

lemma addItem_keys (acc : List (String × ℚ)) (k : String) (v : ℚ) :
    (addItem acc k v).map Prod.fst =
      if acc.any (fun p => p.1 == k) then acc.map Prod.fst
      else acc.map Prod.fst ++ [k] := by
  unfold addItem
  split
  · simp only [List.map_map]
    congr 1
    funext p
    exact updEntry_fst k v p
  · simp

lemma not_any_key {acc : List (String × ℚ)} {k : String}
    (hany : ¬ acc.any (fun p => p.1 == k) = true) : k ∉ acc.map Prod.fst := by
  intro hmem
  rcases List.mem_map.mp hmem with ⟨p, hp, hpk⟩
  refine hany (List.any_eq_true.mpr ⟨p, hp, ?_⟩)
  simp [hpk]

lemma addItem_keys_nodup {acc : List (String × ℚ)} (k : String) (v : ℚ)
    (hnd : (acc.map Prod.fst).Nodup) : ((addItem acc k v).map Prod.fst).Nodup := by
  rw [addItem_keys]
  split
  · exact hnd
  · rename_i hany
    exact nodup_append_singleton hnd (not_any_key hany)

lemma combineAux_keys_nodup :
    ∀ (items acc : List (String × ℚ)), (acc.map Prod.fst).Nodup →
      ((combineAux acc items).map Prod.fst).Nodup := by
  intro items
  induction items with
  | nil => intro acc h; exact h
  | cons it rest ih =>
    intro acc h
    obtain ⟨k, v⟩ := it
    show ((combineAux (if k == "" then acc else addItem acc k v) rest).map Prod.fst).Nodup
    by_cases hk : k = ""
    · simpa [hk] using ih acc h
    · have hb : (k == "") = false := by simp [hk]
      rw [hb]
      simp only [Bool.false_eq_true, if_false]
      exact ih _ (addItem_keys_nodup k v h)

lemma combineSummit_keys_nodup (items : List (String × ℚ)) :
    ((combineSummit items).map Prod.fst).Nodup := by
  have h := combineAux_keys_nodup items [] (by simp)
  have hsub : ((combineSummit items).map Prod.fst).Sublist
      ((combineAux [] items).map Prod.fst) :=
    (List.filter_sublist _).map _
  exact h.sublist hsub

lemma combineAux_no_empty_key :
    ∀ (items acc : List (String × ℚ)), "" ∉ acc.map Prod.fst →
      "" ∉ (combineAux acc items).map Prod.fst := by
  intro items
  induction items with
  | nil => intro acc h; exact h
  | cons it rest ih =>
    intro acc h
    obtain ⟨k, v⟩ := it
    show "" ∉ (combineAux (if k == "" then acc else addItem acc k v) rest).map Prod.fst
    by_cases hk : k = ""
    · simpa [hk] using ih acc h
    · have hb : (k == "") = false := by simp [hk]
      rw [hb]
      simp only [Bool.false_eq_true, if_false]
      apply ih
      rw [addItem_keys]
      split
      · exact h
      · intro hmem
        rcases List.mem_append.mp hmem with h1 | h1
        · exact h h1
        · have h1' : "" = k := by simpa using h1
          exact hk h1'.symm

/-- With distinct keys, the entries for key `c` are exactly the one found
by membership. -/
lemma filter_eq_singleton_of_nodup {c : String} {v : ℚ} :
    ∀ (l : List (String × ℚ)), (l.map Prod.fst).Nodup → (c, v) ∈ l →
      l.filter (fun p => p.1 == c) = [(c, v)] := by
  intro l
  induction l with
  | nil => intro _ h; cases h
  | cons p rest ih =>
    intro hnd hmem
    rw [List.map_cons] at hnd
    have hnd' : (rest.map Prod.fst).Nodup := (List.nodup_cons.mp hnd).2
    have hp1 : p.1 ∉ rest.map Prod.fst := (List.nodup_cons.mp hnd).1
    rcases List.mem_cons.mp hmem with rfl | hmem'
    · have hnil : rest.filter (fun q => q.1 == c) = [] := by
        rw [List.filter_eq_nil_iff]
        intro q hq hbeq
        have hq1 : q.1 = (c, v).1 := by simpa using hbeq
        exact hp1 (List.mem_map.mpr ⟨q, hq, hq1⟩)
      simp [List.filter_cons, hnil]
    · have hne : p.1 ≠ c := by
        intro hcc
        exact hp1 (hcc ▸ List.mem_map.mpr ⟨(c, v), hmem', rfl⟩)
      simp [List.filter_cons, hne, ih hnd' hmem']

lemma key_filter_eq_nil {acc : List (String × ℚ)} {c : String}
    (h : c ∉ acc.map Prod.fst) : acc.filter (fun p => p.1 == c) = [] := by
  rw [List.filter_eq_nil_iff]
  intro q hq hbeq
  exact h (List.mem_map.mpr ⟨q, hq, by simpa using hbeq⟩)

lemma filter_map_updEntry (k : String) (w : ℚ) (c : String) :
    ∀ acc : List (String × ℚ),
      (acc.map (updEntry k w)).filter (fun p => p.1 == c)
        = (acc.filter (fun p => p.1 == c)).map (updEntry k w) := by
  intro acc
  induction acc with
  | nil => rfl
  | cons q qs ihq =>
    rw [List.map_cons, List.filter_cons, List.filter_cons, updEntry_fst]
    by_cases hq : q.1 = c
    · simp only [hq, beq_self_eq_true, if_true, List.map_cons, ihq]
    · have : (q.1 == c) = false := by simp [hq]
      simp only [this, Bool.false_eq_true, if_false, ihq]

/-- Adding an item for key `k` adds `w` to the stored total for `k`. -/
lemma addItem_filter_eq (acc : List (String × ℚ)) (k : String) (w : ℚ)
    (hnd : (acc.map Prod.fst).Nodup) :
    (((addItem acc k w).filter (fun p => p.1 == k)).map (fun p => p.2)).sum
      = ((acc.filter (fun p => p.1 == k)).map (fun p => p.2)).sum + w := by
  unfold addItem
  split
  · rename_i hany
    rcases List.any_eq_true.mp hany with ⟨p, hp, hpk⟩
    have hpk' : p.1 = k := by simpa using hpk
    have hfil := filter_eq_singleton_of_nodup acc hnd
      (show (k, p.2) ∈ acc by rw [← hpk']; exact hp)
    rw [filter_map_updEntry, hfil]
    simp [updEntry]
  · rename_i hany
    rw [List.filter_append, key_filter_eq_nil (not_any_key hany)]
    simp [List.filter_cons]

/-- Adding an item for a different key leaves the stored entries for `c`
unchanged. -/
lemma addItem_filter_ne (acc : List (String × ℚ)) (k : String) (w : ℚ) (c : String)
    (hkc : k ≠ c) :
    (addItem acc k w).filter (fun p => p.1 == c) = acc.filter (fun p => p.1 == c) := by
  have hbkc : (k == c) = false := by simp [hkc]
  unfold addItem
  split
  · rw [filter_map_updEntry]
    have : ∀ q ∈ acc.filter (fun p => p.1 == c), updEntry k w q = q := by
      intro q hq
      have hqc : q.1 = c := by simpa using List.of_mem_filter hq
      have : (q.1 == k) = false := by simp [hqc, Ne.symm hkc]
      simp [updEntry, this]
    exact List.map_congr_left this |>.trans (List.map_id _)
  · rw [List.filter_append]
    simp [List.filter_cons, hbkc]

/-- Value computed by the dict-combining loop: an entry `(c, v)` of the
result carries the sum of the value for `c` already in the accumulator and
all amounts for `c` in the remaining items. -/
lemma combineAux_val :
    ∀ (items acc : List (String × ℚ)), (acc.map Prod.fst).Nodup →
      "" ∉ acc.map Prod.fst →
      ∀ c v, (c, v) ∈ combineAux acc items →
        v = ((acc.filter (fun p => p.1 == c)).map (fun p => p.2)).sum
            + clientBatchTotal c items := by
  intro items
  induction items with
  | nil =>
    intro acc hnd _ c v hmem
    have := filter_eq_singleton_of_nodup acc hnd hmem
    simp [combineAux, clientBatchTotal, this]
  | cons it rest ih =>
    intro acc hnd hemp c v hmem
    obtain ⟨k, w⟩ := it
    rw [show combineAux acc ((k, w) :: rest)
        = combineAux (if k == "" then acc else addItem acc k w) rest from rfl] at hmem
    by_cases hc : c = ""
    · subst hc
      exfalso
      refine combineAux_no_empty_key rest (if k == "" then acc else addItem acc k w) ?_
        (List.mem_map.mpr ⟨("", v), hmem, rfl⟩)
      by_cases hk : k = ""
      · simpa [hk] using hemp
      · have hb : (k == "") = false := by simp [hk]
        rw [hb]
        simp only [Bool.false_eq_true, if_false]
        rw [addItem_keys]
        split
        · exact hemp
        · intro hm
          rcases List.mem_append.mp hm with h1 | h1
          · exact hemp h1
          · have h1' : "" = k := by simpa using h1
            exact hk h1'.symm
    · by_cases hk : k = ""
      · simp only [hk, beq_self_eq_true, if_true] at hmem
        have hv := ih acc hnd hemp c v hmem
        have hb : (k == c) = false := by simp [hk, Ne.symm hc]
        subst hk
        rw [hv]
        simp [clientBatchTotal, List.filter_cons, hb]
      · have hb : (k == "") = false := by simp [hk]
        rw [hb] at hmem
        simp only [Bool.false_eq_true, if_false] at hmem
        have hndAdd := addItem_keys_nodup k w hnd
        have hempAdd : "" ∉ (addItem acc k w).map Prod.fst := by
          rw [addItem_keys]
          split
          · exact hemp
          · intro hm
            rcases List.mem_append.mp hm with h1 | h1
            · exact hemp h1
            · have h1' : "" = k := by simpa using h1
              exact hk h1'.symm
        have hv := ih (addItem acc k w) hndAdd hempAdd c v hmem
        rw [hv]
        by_cases hkc : k = c
        · subst hkc
          rw [addItem_filter_eq acc k w hnd]
          simp [clientBatchTotal, List.filter_cons]
          ring
        · rw [addItem_filter_ne acc k w c hkc]
          have hbkc : (k == c) = false := by simp [hkc]
          simp [clientBatchTotal, List.filter_cons, hbkc]

lemma combineSummit_val (items : List (String × ℚ)) (c : String) (v : ℚ)
    (hmem : (c, v) ∈ combineSummit items) : v = clientBatchTotal c items := by
  have hmem' : (c, v) ∈ combineAux [] items := List.mem_of_mem_filter hmem
  simpa using combineAux_val items [] (by simp) (by simp) c v hmem'

lemma combineSummit_no_empty_key (items : List (String × ℚ)) (v : ℚ) :
    ("", v) ∉ combineSummit items := by
  intro hmem
  have hmem' : ("", v) ∈ combineAux [] items := List.mem_of_mem_filter hmem
  exact combineAux_no_empty_key items [] (by simp)
    (List.mem_map.mpr ⟨("", v), hmem', rfl⟩)

/-- Case analysis on one allocation step: either nothing about the summit
journal and the rows changes, or the step applied the commitment. -/
lemma fpStep_summit_cases (origs : List (String × ℚ)) (st : FPState) (it : String × ℚ) :
    ((fpStep origs st it).summitRows = st.summitRows ∧ (fpStep origs st it).rows = st.rows)
    ∨ ((fpStep origs st it).summitRows = st.summitRows ++ [it] ∧
       0 < sumFor it.1 st.rows ∧
       (fpStep origs st it).rows = st.rows.map (reduceRow it.1 (sumFor it.1 st.rows) it.2)) := by
  simp only [fpStep]
  split
  · exact Or.inl ⟨rfl, rfl⟩
  · rcases hl : origs.lookup it.1 with _ | orig
    · simp only [hl]
      exact Or.inl ⟨by trivial, by trivial⟩
    · simp only [hl]
      split
      · split
        · rename_i hT
          exact Or.inr ⟨by trivial, hT, by trivial⟩
        · exact Or.inl ⟨by trivial, by trivial⟩
      · exact Or.inl ⟨by trivial, by trivial⟩

/-- Conservation along the allocation loop: when the combined commitment
list has distinct client keys and no summit-journal row for client `c` is
pending, a summit row `(c, I)` produced by the loop comes with the client's
row total reduced by exactly `I`. -/
lemma fpLoop_conserve (origs : List (String × ℚ)) (c : String) (I : ℚ) :
    ∀ (items : List (String × ℚ)) (st : FPState),
      ((items.map Prod.fst).Nodup) →
      st.summitRows.filter (fun p => p.1 == c) = [] →
      (c, I) ∈ (fpLoop origs st items).summitRows →
      sumFor c (fpLoop origs st items).rows + I = sumFor c st.rows := by
  intro items
  induction items with
  | nil =>
    intro st _ hflt hmem
    exfalso
    have hin : (c, I) ∈ st.summitRows.filter (fun p => p.1 == c) :=
      List.mem_filter.mpr ⟨hmem, by simp⟩
    rw [hflt] at hin
    cases hin
  | cons it rest ih =>
    intro st hnd hflt hmem
    rw [fpLoop_cons] at hmem ⊢
    rw [List.map_cons] at hnd
    have hndr := (List.nodup_cons.mp hnd).2
    have hnotin := (List.nodup_cons.mp hnd).1
    by_cases hc : it.1 = c
    · have hrestne : ∀ x ∈ rest, x.1 = c → x.2 ≤ 0 := by
        intro x hx hxc
        exact absurd (hc ▸ hxc ▸ List.mem_map.mpr ⟨x, hx, rfl⟩) hnotin
      obtain ⟨g1, g2, _⟩ := fpLoop_pres origs c rest (fpStep origs st it) hrestne
      have hmem' : (c, I) ∈ (fpStep origs st it).summitRows.filter (fun p => p.1 == c) := by
        rw [← g2]
        exact List.mem_filter.mpr ⟨hmem, by simp⟩
      rcases fpStep_summit_cases origs st it with ⟨hs, _⟩ | ⟨hs, hT, hr⟩
      · rw [hs, hflt] at hmem'
        cases hmem'
      · rw [hs, List.filter_append, hflt] at hmem'
        have hit : (c, I) ∈ List.filter (fun p => p.1 == c) [it] := by simpa using hmem'
        have hit' : it = (c, I) :=
          (List.mem_singleton.mp (List.mem_of_mem_filter hit)).symm
        subst hit'
        dsimp only at hT hr
        have hTne : sumFor c st.rows ≠ 0 := ne_of_gt hT
        rw [g1, hr, sumFor_map_reduce, div_self hTne]
        ring
    · obtain ⟨h1, h2, _⟩ := fpStep_ne origs st it c hc
      have := ih (fpStep origs st it) hndr (h2.trans hflt) hmem
      rw [this, h1]

/-- Full description of an applied allocation step. -/
lemma fpStep_applied (origs : List (String × ℚ)) (st : FPState) (oak : String)
    (I orig : ℚ) (hoak : oak ≠ "") (hI : 0 < I)
    (hlk : origs.lookup oak = some orig) (hle : I ≤ orig)
    (hT : 0 < sumFor oak st.rows) :
    fpStep origs st (oak, I) =
      { rows := st.rows.map (reduceRow oak (sumFor oak st.rows) I),
        summitRows := st.summitRows ++ [(oak, I)],
        unmatched := st.unmatched,
        matchedCount := st.matchedCount + 1 } := by
  have hrows : st.rows.filter (fun r => r.ckey == oak) ≠ [] := by
    intro hnil
    rw [show sumFor oak st.rows = ((st.rows.filter (fun r => r.ckey == oak)).map
      (fun r => r.amount)).sum from rfl, hnil] at hT
    exact absurd hT (by norm_num)
  have hcond : ¬((oak, I).1 = "" ∨ (oak, I).2 ≤ 0) := by
    push_neg
    exact ⟨hoak, hI⟩
  simp only [fpStep, hlk]
  rw [if_neg (by simpa using hcond), if_pos ⟨hrows, hle⟩, if_pos hT]

/-- Row total after an applied allocation step. -/
lemma fpStep_applied_sum (origs : List (String × ℚ)) (st : FPState) (oak : String)
    (I orig : ℚ) (hoak : oak ≠ "") (hI : 0 < I)
    (hlk : origs.lookup oak = some orig) (hle : I ≤ orig)
    (hT : 0 < sumFor oak st.rows) :
    sumFor oak (fpStep origs st (oak, I)).rows = sumFor oak st.rows - I := by
  rw [fpStep_applied origs st oak I orig hoak hI hlk hle hT]
  show sumFor oak (st.rows.map (reduceRow oak (sumFor oak st.rows) I))
    = sumFor oak st.rows - I
  rw [sumFor_map_reduce, div_self (ne_of_gt hT)]
  ring

/-! ### Claim theorems for the Allocation Engine -/

/-- C1: for every client whose commitment is applied (a summit journal row
`(c, I)` is created), the sum of the client's working-row amounts after
allocation plus the installment row amount `I` equals the client's
pre-allocation total — in the rational model exactly, hence in particular
to within the 0.01 tolerance the specification allows. -/
theorem C1_allocation_client_conservation
    (origs : List (String × ℚ)) (rows0 : List WRow) (summit : List (String × ℚ))
    (c : String) (I : ℚ)
    (hmem : (c, I) ∈ (fpSummit origs rows0 summit).summitRows) :
    sumFor c (fpSummit origs rows0 summit).rows + I = sumFor c rows0 ∧
    |sumFor c (fpSummit origs rows0 summit).rows + I - sumFor c rows0| < 1/100 := by
  have h : sumFor c (fpSummit origs rows0 summit).rows + I = sumFor c rows0 :=
    fpLoop_conserve origs c I (combineSummit summit) ⟨rows0, [], [], 0⟩
      (combineSummit_keys_nodup summit) rfl hmem
  exact ⟨h, by rw [h]; norm_num⟩

/-- Witness for C1 at the specification's own scenario: client `"99"` with
rows 30 and 70 and a commitment of 40. -/
theorem C1_allocation_client_conservation_witness :
    ("99", (40 : ℚ)) ∈
      (fpSummit [("99", 100)] [⟨"99", 30⟩, ⟨"99", 70⟩] [("99", 40)]).summitRows ∧
    sumFor "99" (fpSummit [("99", 100)] [⟨"99", 30⟩, ⟨"99", 70⟩] [("99", 40)]).rows + 40
      = sumFor "99" [⟨"99", 30⟩, ⟨"99", 70⟩] := by
  have hred : fpSummit [("99", 100)] [⟨"99", 30⟩, ⟨"99", 70⟩] [("99", 40)]
      = fpStep [("99", 100)] ⟨[⟨"99", 30⟩, ⟨"99", 70⟩], [], [], 0⟩ ("99", 40) := rfl
  have happ := fpStep_applied [("99", 100)] ⟨[⟨"99", 30⟩, ⟨"99", 70⟩], [], [], 0⟩
    "99" 40 100 (by decide) (by norm_num) rfl (by norm_num) (by norm_num [sumFor])
  have hm : ("99", (40 : ℚ)) ∈
      (fpSummit [("99", 100)] [⟨"99", 30⟩, ⟨"99", 70⟩] [("99", 40)]).summitRows := by
    rw [hred, happ]
    simp
  exact ⟨hm, (C1_allocation_client_conservation _ _ _ _ _ hm).1⟩

/-- Counterexample to C2 as stated: client `"7"` has one working row of 50
(positive current total), the commitment is 60 > 50, yet the engine does
not apply it (no summit row is created) and it IS reported as unmatched,
because the code only applies commitments not exceeding the stored
original amount. -/
theorem C2_counterexample :
    sumFor "7" [⟨"7", 50⟩] = 50 ∧ (50 : ℚ) < 60 ∧
    (fpSummit [("7", 50)] [⟨"7", 50⟩] [("7", 60)]).summitRows = [] ∧
    (fpSummit [("7", 50)] [⟨"7", 50⟩] [("7", 60)]).unmatched = [("7", 60)] := by
  exact ⟨by norm_num [sumFor], by norm_num, rfl, rfl⟩

/-- C2 (amended): a commitment larger than the client's current positive
total is still applied — with rows driven negative — provided it does not
exceed the client's stored original amount; it is then not reported as
unmatched.  (When it exceeds the stored original amount it is reported
unmatched instead, as the counterexample shows.) -/
theorem C2_amended_overcommit_applied
    (origs : List (String × ℚ)) (st : FPState) (oak : String) (I orig : ℚ)
    (hoak : oak ≠ "") (hI : 0 < I)
    (hlk : origs.lookup oak = some orig) (hle : I ≤ orig)
    (hT : 0 < sumFor oak st.rows) :
    (fpStep origs st (oak, I)).summitRows = st.summitRows ++ [(oak, I)] ∧
    (fpStep origs st (oak, I)).unmatched = st.unmatched ∧
    sumFor oak (fpStep origs st (oak, I)).rows = sumFor oak st.rows - I ∧
    (sumFor oak st.rows < I → sumFor oak (fpStep origs st (oak, I)).rows < 0) := by
  have hrw := fpStep_applied origs st oak I orig hoak hI hlk hle hT
  have hsum := fpStep_applied_sum origs st oak I orig hoak hI hlk hle hT
  refine ⟨by rw [hrw], by rw [hrw], hsum, fun hlt => ?_⟩
  rw [hsum]
  linarith

/-- Witness for the amended C2: original 100, current total 50, commitment
60: applied, not unmatched, and the client's rows end up at −10. -/
theorem C2_amended_overcommit_applied_witness :
    sumFor "7" [⟨"7", 50⟩] = 50 ∧
    sumFor "7" (fpStep [("7", 100)] ⟨[⟨"7", 50⟩], [], [], 0⟩ ("7", 60)).rows < 0 ∧
    (fpStep [("7", 100)] ⟨[⟨"7", 50⟩], [], [], 0⟩ ("7", 60)).summitRows = [("7", 60)] ∧
    (fpStep [("7", 100)] ⟨[⟨"7", 50⟩], [], [], 0⟩ ("7", 60)).unmatched = [] := by
  have h := C2_amended_overcommit_applied [("7", 100)] ⟨[⟨"7", 50⟩], [], [], 0⟩ "7" 60 100
    (by decide) (by norm_num) rfl (by norm_num) (by norm_num [sumFor])
  refine ⟨by norm_num [sumFor], h.2.2.2 (by norm_num [sumFor]), ?_, ?_⟩
  · rw [h.1]; rfl
  · rw [h.2.1]

/-- C10: per-client commitments that combine to a total ≤ 0 are silently
dropped by the engine: the client's rows are not reduced, no summit
journal row is created for the client, and the commitment does not appear
in the unmatched output either. -/
theorem C10_nonpositive_commitment_silently_dropped
    (origs : List (String × ℚ)) (rows0 : List WRow) (summit : List (String × ℚ))
    (c : String) (h : clientBatchTotal c summit ≤ 0) :
    sumFor c (fpSummit origs rows0 summit).rows = sumFor c rows0 ∧
    (fpSummit origs rows0 summit).summitRows.filter (fun p => p.1 == c) = [] ∧
    (fpSummit origs rows0 summit).unmatched.filter (fun p => p.1 == c) = [] := by
  have hitems : ∀ it ∈ combineSummit summit, it.1 = c → it.2 ≤ 0 := by
    intro it hit hc2
    obtain ⟨k, v⟩ := it
    simp only at hc2
    subst hc2
    have := combineSummit_val summit k v hit
    rw [this]
    exact h
  obtain ⟨g1, g2, g3⟩ := fpLoop_pres origs c (combineSummit summit) ⟨rows0, [], [], 0⟩ hitems
  exact ⟨g1, g2, g3⟩

/-- Witness for C10: client `"9"` uploads commitments 5 and −5 (combined
total 0).  Nothing is reduced, nothing is reported, and the processed
counts (matched 0, unmatched 0) are below the distinct-client count 1. -/
theorem C10_nonpositive_commitment_silently_dropped_witness :
    clientBatchTotal "9" [("9", 5), ("9", -5)] ≤ 0 ∧
    sumFor "9" (fpSummit [("9", 10)] [⟨"9", 10⟩] [("9", 5), ("9", -5)]).rows
      = sumFor "9" [⟨"9", 10⟩] ∧
    (fpSummit [("9", 10)] [⟨"9", 10⟩] [("9", 5), ("9", -5)]).summitRows.filter
      (fun p => p.1 == "9") = [] ∧
    (fpSummit [("9", 10)] [⟨"9", 10⟩] [("9", 5), ("9", -5)]).unmatched.filter
      (fun p => p.1 == "9") = [] ∧
    (fpSummit [("9", 10)] [⟨"9", 10⟩] [("9", 5), ("9", -5)]).matchedCount
      + (fpSummit [("9", 10)] [⟨"9", 10⟩] [("9", 5), ("9", -5)]).unmatched.length
      < 1 := by
  have h := C10_nonpositive_commitment_silently_dropped [("9", 10)] [⟨"9", 10⟩]
    [("9", 5), ("9", -5)] "9" (by norm_num [clientBatchTotal])
  refine ⟨by norm_num [clientBatchTotal], h.1, h.2.1, h.2.2, ?_⟩
  simp [fpSummit, fpLoop, fpStep, combineSummit, combineAux, addItem, updEntry, sumFor,
    List.lookup]

/-! ## Shared transaction model

The matching stages, the Stage-3 classifier and the cutoff computation all
work on `StripeTransaction` (the external/processor ledger) and
`CashbookTransaction` (the internal/bank ledger) rows.  Only the columns
the embedded code reads are modelled. -/

/-- A date-string column (see the module docstring): `missing` is SQL
`NULL` or the empty string, `bad n` an unparseable non-empty string,
`good d` a string parsing to day ordinal `d`. -/
inductive DS where
  | missing : DS
  | bad : Nat → DS
  | good : Int → DS
deriving DecidableEq, Repr

/-- Parsing a date column with `datetime.strptime(_, dd/mm/yyyy)` (the
only format the standard path accepts). -/
def parseDMY : DS → Option Int
  | DS.good d => some d
  | _ => none

/-- The canonical `type` tags of external entries, as the code compares
them: `'Refund'` (case-insensitively), `'Stripe Fee'`, `'Network Cost'` and
`'Payment Failure Refund'` (exactly); anything else is `other`. -/
inductive TxType where
  | charge | refund | stripeFee | networkCost | paymentFailureRefund | other
deriving DecidableEq, Repr

/-- An external (processor) ledger entry: `StripeTransaction`. -/
structure StripeTx where
  id : Nat
  client_number : Option String
  description_client_id : Option String
  type : TxType
  created : DS
  amount : Option ℚ
  currency : Option String
deriving DecidableEq, Repr

/-- An internal (bank) ledger entry: `CashbookTransaction`.
`billing_entity` uses `""` for SQL `NULL` (both falsy in the code). -/
structure CashTx where
  id : Nat
  client_id : Option Int
  payment_date : DS
  amount : Option ℚ
  currency : Option String
  billing_entity : String
deriving DecidableEq, Repr

/-- `x or 0` on a nullable amount. -/
def optQ : Option ℚ → ℚ
  | none => 0
  | some a => a

/-! ## Stage-1 cutoff date (`process1_match`, app.py)

`actual_transactions = [t for t in stripe_transactions if t.created and
t.type not in ['Stripe Fee', 'Network Cost']]`, then all `created`
timestamps are parsed (`%d/%m/%Y`, failures skipped) and the latest parsed
date is the cutoff. -/

/-- The entries eligible for the cutoff computation. -/
def actualTransactions (stripe : List StripeTx) : List StripeTx :=
  stripe.filter (fun t =>
    t.created != DS.missing && t.type != TxType.stripeFee && t.type != TxType.networkCost)

/-- The parsed dates of the eligible entries (`parsed_dates`). -/
def parsedDates (stripe : List StripeTx) : List Int :=
  (actualTransactions stripe).filterMap (fun t => parseDMY t.created)

/-- The two failure modes of the cutoff computation. -/
inductive P1Err where
  | noActual      -- "No actual transactions found in Stripe data (only fees)"
  | noValidDates  -- "No valid dates found in actual Stripe transactions"
deriving DecidableEq, Repr

/-- The cutoff computation itself: fail when no eligible entry exists or
none of their timestamps parses, otherwise return the latest parsed date
(the code sorts descending and takes the head). -/
def process1Cutoff (stripe : List StripeTx) : Except P1Err Int :=
  if actualTransactions stripe = [] then Except.error P1Err.noActual
  else
    match (parsedDates stripe).max? with
    | none => Except.error P1Err.noValidDates
    | some d => Except.ok d

/-- The cutoff candidates exactly as the claim words them: parsed
timestamps of entries "whose kind is not a processing fee" (network costs
NOT excluded). -/
def claimCutoffDates (stripe : List StripeTx) : List Int :=
  (stripe.filter (fun t => t.type != TxType.stripeFee)).filterMap (fun t => parseDMY t.created)

lemma intMax?_eq_some_iff {l : List Int} {d : Int} :
    l.max? = some d ↔ d ∈ l ∧ ∀ x ∈ l, x ≤ d := by
  have : Std.Antisymm (α := Int) (· ≤ ·) := ⟨fun h1 h2 => le_antisymm h1 h2⟩
  rw [List.max?_eq_some_iff]
  all_goals simp [le_total]

lemma parsedDates_empty_of_actual_empty {stripe : List StripeTx}
    (h : actualTransactions stripe = []) : parsedDates stripe = [] := by
  unfold parsedDates
  rw [h]
  rfl

/-- Membership characterization of a parsed cutoff candidate. -/
lemma mem_parsedDates {stripe : List StripeTx} {d : Int} :
    d ∈ parsedDates stripe ↔
      ∃ t ∈ stripe, t.type ≠ TxType.stripeFee ∧ t.type ≠ TxType.networkCost ∧
        parseDMY t.created = some d := by
  unfold parsedDates actualTransactions
  rw [List.mem_filterMap]
  constructor
  · rintro ⟨t, ht, hp⟩
    have hmem := List.mem_filter.mp ht
    refine ⟨t, hmem.1, ?_, ?_, hp⟩
    · have := hmem.2
      simp only [Bool.and_eq_true, bne_iff_ne] at this
      exact this.1.2
    · have := hmem.2
      simp only [Bool.and_eq_true, bne_iff_ne] at this
      exact this.2
  · rintro ⟨t, ht, h1, h2, hp⟩
    refine ⟨t, List.mem_filter.mpr ⟨ht, ?_⟩, hp⟩
    have hm : t.created ≠ DS.missing := by
      intro hmiss
      rw [hmiss] at hp
      cases hp
    simp only [Bool.and_eq_true, bne_iff_ne]
    exact ⟨⟨hm, h1⟩, h2⟩

/-! ### Claim theorems for the cutoff -/

/-- Counterexample to C5 as stated: with one charge dated day 10 and one
network-cost entry dated day 20, the claim's cutoff (latest timestamp of
entries that are not processing fees) is 20, but the code excludes network
costs and returns 10; with only the network-cost entry, the claim predicts
cutoff 20 while the code fails. -/
theorem C5_counterexample :
    process1Cutoff
        [⟨1, some "1", none, TxType.charge, DS.good 10, some 5, some "USD"⟩,
         ⟨2, some "1", none, TxType.networkCost, DS.good 20, some 5, some "USD"⟩]
      = Except.ok 10 ∧
    (claimCutoffDates
        [⟨1, some "1", none, TxType.charge, DS.good 10, some 5, some "USD"⟩,
         ⟨2, some "1", none, TxType.networkCost, DS.good 20, some 5, some "USD"⟩]).max?
      = some 20 ∧
    process1Cutoff [⟨2, some "1", none, TxType.networkCost, DS.good 20, some 5, some "USD"⟩]
      = Except.error P1Err.noActual ∧
    (claimCutoffDates
        [⟨2, some "1", none, TxType.networkCost, DS.good 20, some 5, some "USD"⟩]).max?
      = some 20 := by
  exact ⟨rfl, rfl, rfl, rfl⟩

/-- C5 (amended): the cutoff is the latest parsed timestamp among external
entries whose kind is neither a processing fee nor a network cost, and the
computation fails — performing no matching — exactly when no such entry
has a parseable timestamp (two error codes distinguish "no eligible
entry" from "no parseable timestamp"). -/
theorem C5_amended_cutoff (stripe : List StripeTx) :
    ((∃ e, process1Cutoff stripe = Except.error e) ↔
      ¬ ∃ t ∈ stripe, t.type ≠ TxType.stripeFee ∧ t.type ≠ TxType.networkCost ∧
          ∃ d, parseDMY t.created = some d) ∧
    (∀ d : Int, process1Cutoff stripe = Except.ok d ↔
      ((∃ t ∈ stripe, t.type ≠ TxType.stripeFee ∧ t.type ≠ TxType.networkCost ∧
          parseDMY t.created = some d) ∧
       (∀ t ∈ stripe, t.type ≠ TxType.stripeFee → t.type ≠ TxType.networkCost →
          ∀ d', parseDMY t.created = some d' → d' ≤ d))) := by
  constructor
  · constructor
    · rintro ⟨e, he⟩ ⟨t, ht, h1, h2, d, hp⟩
      have hd : d ∈ parsedDates stripe := mem_parsedDates.mpr ⟨t, ht, h1, h2, hp⟩
      unfold process1Cutoff at he
      split at he
      · rename_i hact
        rw [parsedDates_empty_of_actual_empty hact] at hd
        cases hd
      · rcases hmax : (parsedDates stripe).max? with _ | m
        · rw [List.max?_eq_none_iff] at hmax
          rw [hmax] at hd
          cases hd
        · rw [hmax] at he
          cases he
    · intro hno
      unfold process1Cutoff
      split
      · exact ⟨P1Err.noActual, rfl⟩
      · rcases hmax : (parsedDates stripe).max? with _ | m
        · exact ⟨P1Err.noValidDates, rfl⟩
        · exfalso
          have hm : m ∈ parsedDates stripe := (intMax?_eq_some_iff.mp hmax).1
          rcases mem_parsedDates.mp hm with ⟨t, ht, h1, h2, hp⟩
          exact hno ⟨t, ht, h1, h2, m, hp⟩
  · intro d
    constructor
    · intro hok
      unfold process1Cutoff at hok
      split at hok
      · cases hok
      · rcases hmax : (parsedDates stripe).max? with _ | m
        · rw [hmax] at hok
          cases hok
        · rw [hmax] at hok
          cases hok
          obtain ⟨hmem, hub⟩ := intMax?_eq_some_iff.mp hmax
          rcases mem_parsedDates.mp hmem with ⟨t, ht, h1, h2, hp⟩
          refine ⟨⟨t, ht, h1, h2, hp⟩, ?_⟩
          intro t' ht' h1' h2' d' hp'
          exact hub d' (mem_parsedDates.mpr ⟨t', ht', h1', h2', hp'⟩)
    · rintro ⟨⟨t, ht, h1, h2, hp⟩, hub⟩
      have hmemd : d ∈ parsedDates stripe := mem_parsedDates.mpr ⟨t, ht, h1, h2, hp⟩
      have hmax : (parsedDates stripe).max? = some d := by
        rw [intMax?_eq_some_iff]
        refine ⟨hmemd, ?_⟩
        intro x hx
        rcases mem_parsedDates.mp hx with ⟨t', ht', h1', h2', hp'⟩
        exact hub t' ht' h1' h2' x hp'
      unfold process1Cutoff
      split
      · rename_i hact
        rw [parsedDates_empty_of_actual_empty hact] at hmemd
        cases hmemd
      · rw [hmax]

/-! ## Journal Splitter

Two implementations exist: the route-level splitter in
`download_split_journals` (app.py) and `JournalBuilder.split_journals`
(journal_generation/journal_builder.py).  Both partition matched rows over
{cross-entity, refunds, proof-of-amount (POA), main}. -/

/-- The fields of a matched row the splitters read (`cb_billing_entity`,
`cb_amount`, `cb_invoice_number`); `billing_entity = ""` models SQL `NULL`
or the empty string (both falsy / `NaN`-like). -/
structure MRow where
  billing_entity : String
  amount : Option ℚ
  invoice_number : Option String
deriving DecidableEq, Repr

/-- The four journals. -/
inductive Journal where
  | cross | refunds | poa | main
deriving DecidableEq, Repr

/-- `leadsWith pat l` is true when `pat` starts `l`. -/
def leadsWith : List Char → List Char → Bool
  | [], _ => true
  | _ :: _, [] => false
  | a :: as, b :: bs => a == b && leadsWith as bs

/-- Substring search over character lists. -/
def hasSub (pat : List Char) : List Char → Bool
  | [] => leadsWith pat []
  | b :: bs => leadsWith pat (b :: bs) || hasSub pat bs

/-- Python's `'POA' in str(x).upper()` (ASCII upper-casing). -/
def containsPOA (s : String) : Bool :=
  hasSub ['P', 'O', 'A'] (s.data.map Char.toUpper)

/-- The POA test on a nullable invoice number: `None` (and the falsy empty
string, on which the search fails anyway) never matches. -/
def invoiceHasPOA : Option String → Bool
  | none => false
  | some s => containsPOA s

/-- `match.cb_amount and match.cb_amount < 0` (and pandas
`amount < 0`, where `NaN < 0` is false). -/
def amtNeg (a : Option ℚ) : Bool :=
  match a with
  | some x => decide (x < 0)
  | none => false

/-- pandas `amount >= 0` (`NaN >= 0` is false). -/
def amtNonneg (a : Option ℚ) : Bool :=
  match a with
  | some x => decide (0 ≤ x)
  | none => false

/-- The per-record decision of `download_split_journals`: cross-entity
(non-empty billing entity differing from the current one) first, then
refunds (negative amount), then POA, then main. -/
def downloadCategory (current : String) (r : MRow) : Journal :=
  if r.billing_entity != "" && r.billing_entity != current then Journal.cross
  else if amtNeg r.amount then Journal.refunds
  else if invoiceHasPOA r.invoice_number then Journal.poa
  else Journal.main

/-- The journal lists produced by the `download_split_journals` loop (the
loop appends each row to exactly the branch its category selects; the
cross-entity dict is flattened over its keys). -/
def downloadSplit (current : String) (rows : List MRow) (j : Journal) : List MRow :=
  rows.filter (fun r => downloadCategory current r == j)

/-- The journal lists produced by `JournalBuilder.split_journals` through
pandas masks: refunds = `amount < 0`; the remaining rows
(`amount >= 0` — rows with a missing amount fall out of both!) are split
into POA, then cross-entity (billing entity differing, with NO
non-emptiness guard), then main. -/
def builderSplit (current : String) (rows : List MRow) (j : Journal) : List MRow :=
  match j with
  | Journal.refunds => rows.filter (fun r => amtNeg r.amount)
  | Journal.poa =>
      (rows.filter (fun r => amtNonneg r.amount)).filter
        (fun r => invoiceHasPOA r.invoice_number)
  | Journal.cross =>
      ((rows.filter (fun r => amtNonneg r.amount)).filter
        (fun r => !invoiceHasPOA r.invoice_number)).filter
        (fun r => r.billing_entity != current)
  | Journal.main =>
      ((rows.filter (fun r => amtNonneg r.amount)).filter
        (fun r => !invoiceHasPOA r.invoice_number)).filter
        (fun r => !(r.billing_entity != current))

/-- The per-record decision exactly as the claim words it: owning-entity
differs → cross-entity; else amount < 0 → refunds; else marker → POA;
else main. -/
def claimCategory (current : String) (r : MRow) : Journal :=
  if r.billing_entity != current then Journal.cross
  else if amtNeg r.amount then Journal.refunds
  else if invoiceHasPOA r.invoice_number then Journal.poa
  else Journal.main

/-- The builder's per-record decision (refunds evaluated first), as a
partial category: rows without an amount land in no journal. -/
def builderCategory (current : String) (r : MRow) : Option Journal :=
  match r.amount with
  | none => none
  | some a =>
    if a < 0 then some Journal.refunds
    else if invoiceHasPOA r.invoice_number then some Journal.poa
    else if r.billing_entity != current then some Journal.cross
    else some Journal.main

lemma builderSplit_mem (current : String) (rows : List MRow) (r : MRow) (j : Journal) :
    r ∈ builderSplit current rows j ↔ r ∈ rows ∧ builderCategory current r = some j := by
  rcases ha : r.amount with _ | a
  · cases j <;>
      simp [builderSplit, List.mem_filter, amtNeg, amtNonneg, builderCategory, ha]
  · by_cases h1 : a < 0
    · have h1' : ¬ (0:ℚ) ≤ a := not_le.mpr h1
      cases j <;>
        simp [builderSplit, List.mem_filter, amtNeg, amtNonneg, builderCategory, ha, h1, h1']
    · have h1' : (0:ℚ) ≤ a := not_lt.mp h1
      by_cases h2 : invoiceHasPOA r.invoice_number
      · cases j <;>
          simp [builderSplit, List.mem_filter, amtNeg, amtNonneg, builderCategory, ha, h1,
            h1', h2]
      · by_cases h3 : r.billing_entity = current
        · cases j <;>
            simp [builderSplit, List.mem_filter, amtNeg, amtNonneg, builderCategory, ha, h1,
              h1', h2, h3]
        · cases j <;>
            simp [builderSplit, List.mem_filter, amtNeg, amtNonneg, builderCategory, ha, h1,
              h1', h2, h3]

lemma downloadSplit_mem (current : String) (rows : List MRow) (r : MRow) (j : Journal) :
    r ∈ downloadSplit current rows j ↔ r ∈ rows ∧ downloadCategory current r = j := by
  simp [downloadSplit, List.mem_filter]

/-! ### Claim theorems for the Journal Splitter -/

/-- Counterexample to C6 as stated: a matched record with a negative
amount whose owning entity differs from the reconciliation entity must go
to the cross-entity journal under the claim's rule order, but
`JournalBuilder.split_journals` evaluates the refunds mask first and
places it in the refunds journal. -/
theorem C6_counterexample :
    claimCategory "Me" ⟨"Other", some (-5), none⟩ = Journal.cross ∧
    ⟨"Other", some (-5), none⟩ ∈
      builderSplit "Me" [⟨"Other", some (-5), none⟩] Journal.refunds ∧
    ⟨"Other", some (-5), none⟩ ∉
      builderSplit "Me" [⟨"Other", some (-5), none⟩] Journal.cross := by
  refine ⟨rfl, ?_, ?_⟩
  · simp [builderSplit, List.mem_filter, amtNeg]
  · simp [builderSplit, List.mem_filter, amtNonneg]

/-- C6 (amended): the route-level splitter (`download_split_journals`)
assigns every matched record to exactly one journal by the claimed rule
order, with the proviso that a record with an empty owning entity is never
cross-entity; the `JournalBuilder` variant instead evaluates refunds
before the POA and cross-entity rules, partitions the records that carry
an amount, and drops records with a missing amount from all four
journals. -/
theorem C6_amended_journal_split (current : String) (rows : List MRow) (r : MRow)
    (hr : r ∈ rows) :
    (∀ j, r ∈ downloadSplit current rows j ↔ downloadCategory current r = j) ∧
    (∃! j, r ∈ downloadSplit current rows j) ∧
    (r.billing_entity ≠ "" → downloadCategory current r = claimCategory current r) ∧
    (∀ j, r ∈ builderSplit current rows j ↔ builderCategory current r = some j) ∧
    (∀ a, r.amount = some a → ∃! j, r ∈ builderSplit current rows j) ∧
    (r.amount = none → ∀ j, r ∉ builderSplit current rows j) := by
  refine ⟨fun j => ?_, ?_, ?_, fun j => ?_, ?_, ?_⟩
  · rw [downloadSplit_mem]
    exact and_iff_right hr
  · refine ⟨downloadCategory current r, ?_, ?_⟩
    · exact (downloadSplit_mem current rows r _).mpr ⟨hr, rfl⟩
    · intro j hj
      rw [downloadSplit_mem] at hj
      exact hj.2.symm
  · intro hbe
    unfold downloadCategory claimCategory
    have : (r.billing_entity != "") = true := by simpa using hbe
    rw [this, Bool.true_and]
  · rw [builderSplit_mem]
    exact and_iff_right hr
  · intro a ha
    have hsome : ∃ j₀, builderCategory current r = some j₀ := by
      simp only [builderCategory, ha]
      by_cases h1 : a < 0
      · exact ⟨_, by rw [if_pos h1]⟩
      · by_cases h2 : invoiceHasPOA r.invoice_number
        · rw [if_neg h1]
          exact ⟨_, by rw [if_pos h2]⟩
        · by_cases h3 : r.billing_entity != current
          · rw [if_neg h1, if_neg h2]
            exact ⟨_, by rw [if_pos h3]⟩
          · rw [if_neg h1, if_neg h2]
            exact ⟨_, by rw [if_neg h3]⟩
    obtain ⟨j₀, hj₀⟩ := hsome
    refine ⟨j₀, ?_, ?_⟩
    · exact (builderSplit_mem current rows r j₀).mpr ⟨hr, hj₀⟩
    · intro j hj
      rw [builderSplit_mem] at hj
      have := hj.2.symm.trans hj₀
      exact Option.some_injective _ this
  · intro ha j hj
    rw [builderSplit_mem] at hj
    rw [builderCategory, ha] at hj
    cases hj.2

/-- Witness for the amended C6: a proof-of-amount record (empty owning
entity, positive amount, invoice containing the marker) lands in the POA
journal of both splitters and in no other journal. -/
theorem C6_amended_journal_split_witness :
    (⟨"", some 5, some "POA-1"⟩ : MRow) ∈
      downloadSplit "Me" [⟨"", some 5, some "POA-1"⟩] Journal.poa ∧
    (⟨"", some 5, some "POA-1"⟩ : MRow) ∈
      builderSplit "Me" [⟨"", some 5, some "POA-1"⟩] Journal.poa ∧
    (⟨"", some 5, some "POA-1"⟩ : MRow) ∉
      downloadSplit "Me" [⟨"", some 5, some "POA-1"⟩] Journal.cross := by
  have h := C6_amended_journal_split "Me" [⟨"", some 5, some "POA-1"⟩]
    ⟨"", some 5, some "POA-1"⟩ (List.mem_singleton.mpr rfl)
  have hdl : downloadCategory "Me" ⟨"", some 5, some "POA-1"⟩ = Journal.poa := by decide
  have hbc : builderCategory "Me" ⟨"", some 5, some "POA-1"⟩ = some Journal.poa := by decide
  refine ⟨(h.1 Journal.poa).mpr hdl, ((h.2.2.2.1) Journal.poa).mpr hbc, ?_⟩
  intro hmem
  have := (h.1 Journal.cross).mp hmem
  rw [hdl] at this
  cases this

/-! ## Stage-3 Classifier (`perform_process3_analysis`, app.py)

Each external entry still unmatched after Stages 1–2 is classified, in
order: refund (negative amount or type `'refund'` case-insensitively),
fee (client number `"0"`), cross-entity (some cashbook entry with a
non-empty different billing entity, the same date string and amount within
0.01), near-match (`is_near_match` with 2-day tolerance), else residual.
Both existence checks scan ALL cashbook entries of the scope. -/

/-- `str(stripe_tx.client_number or '')`. -/
def sClientE (s : StripeTx) : String :=
  match s.client_number with
  | none => ""
  | some v => v

/-- `str(cashbook_tx.client_id or '')` — note that the integer 0 is falsy
in Python, so a client id of 0 also yields the empty string. -/
def cbClientE (c : CashTx) : String :=
  match c.client_id with
  | none => ""
  | some n => if n = 0 then "" else toString n

/-- The refund test: `(stripe_tx.amount and stripe_tx.amount < 0) or
(stripe_tx.type or '').lower() == 'refund'`. -/
def isRefundTx (s : StripeTx) : Bool :=
  (match s.amount with
   | some a => decide (a < 0)
   | none => false) || (s.type == TxType.refund)

/-- The fee test: `stripe_tx.client_number == "0"`. -/
def isFeeTx (s : StripeTx) : Bool :=
  s.client_number == some "0"

/-- The cross-entity test against one cashbook entry: non-empty billing
entity different from the current subsidiary, equal date strings, and
amounts (read through `or 0`) within 0.01. -/
def crossPred (current : String) (s : StripeTx) (cb : CashTx) : Bool :=
  cb.billing_entity != "" && cb.billing_entity != current &&
  cb.payment_date == s.created &&
  decide (|optQ cb.amount - optQ s.amount| < 1/100)

/-- `is_near_match` with `date_tolerance_days=2`: equal client strings,
amount difference strictly below 0.01 (`>= 0.01` returns False), and both
dates parsing with a difference of at most 2 days (parse failure returns
False). -/
def isNearMatch (s : StripeTx) (cb : CashTx) : Bool :=
  sClientE s == cbClientE cb &&
  decide (|optQ s.amount - optQ cb.amount| < 1/100) &&
  (match parseDMY s.created, parseDMY cb.payment_date with
   | some d1, some d2 => decide (|d1 - d2| ≤ 2)
   | _, _ => false)

/-- The five Stage-3 categories. -/
inductive P3Cat where
  | refund | fee | cross | nearMatch | residual
deriving DecidableEq, Repr

/-- The classification of one unmatched external entry, first rule wins. -/
def classifyTx (current : String) (allCB : List CashTx) (s : StripeTx) : P3Cat :=
  if isRefundTx s then P3Cat.refund
  else if isFeeTx s then P3Cat.fee
  else if allCB.any (crossPred current s) then P3Cat.cross
  else if allCB.any (isNearMatch s) then P3Cat.nearMatch
  else P3Cat.residual

/-- The five output sets of `perform_process3_analysis` (the loop appends
each entry to exactly the set its classification selects). -/
def p3List (current : String) (allCB : List CashTx) (us : List StripeTx)
    (cat : P3Cat) : List StripeTx :=
  us.filter (fun s => classifyTx current allCB s == cat)

/-! ### Claim theorem for the classifier -/

/-- C7: every external entry unmatched after Stages 1–2 lands in exactly
one of the five Stage-3 sets (the set of its classification), and the
classification is the first matching rule in the order refund → fee →
cross-entity → near-match → residual, with each rule exactly as the claim
states it (the near-match day difference and the cashbook scans spelled
out against all cashbook entries of the scope). -/
theorem C7_classifier_first_rule_partition (current : String) (allCB : List CashTx)
    (us : List StripeTx) (s : StripeTx) (hs : s ∈ us) :
    (∀ cat : P3Cat, s ∈ p3List current allCB us cat ↔ classifyTx current allCB s = cat) ∧
    (classifyTx current allCB s = P3Cat.refund ↔
      (∃ a, s.amount = some a ∧ a < 0) ∨ s.type = TxType.refund) ∧
    (classifyTx current allCB s = P3Cat.fee ↔
      ¬ ((∃ a, s.amount = some a ∧ a < 0) ∨ s.type = TxType.refund) ∧
      s.client_number = some "0") ∧
    (classifyTx current allCB s = P3Cat.cross ↔
      ¬ ((∃ a, s.amount = some a ∧ a < 0) ∨ s.type = TxType.refund) ∧
      s.client_number ≠ some "0" ∧
      ∃ cb ∈ allCB, cb.billing_entity ≠ "" ∧ cb.billing_entity ≠ current ∧
        cb.payment_date = s.created ∧ |optQ cb.amount - optQ s.amount| < 1/100) ∧
    (classifyTx current allCB s = P3Cat.nearMatch ↔
      ¬ ((∃ a, s.amount = some a ∧ a < 0) ∨ s.type = TxType.refund) ∧
      s.client_number ≠ some "0" ∧
      ¬ (∃ cb ∈ allCB, cb.billing_entity ≠ "" ∧ cb.billing_entity ≠ current ∧
          cb.payment_date = s.created ∧ |optQ cb.amount - optQ s.amount| < 1/100) ∧
      ∃ cb ∈ allCB, sClientE s = cbClientE cb ∧
        |optQ s.amount - optQ cb.amount| < 1/100 ∧
        ∃ d1 d2, parseDMY s.created = some d1 ∧ parseDMY cb.payment_date = some d2 ∧
          |d1 - d2| ≤ 2) ∧
    (classifyTx current allCB s = P3Cat.residual ↔
      ¬ ((∃ a, s.amount = some a ∧ a < 0) ∨ s.type = TxType.refund) ∧
      s.client_number ≠ some "0" ∧
      ¬ (∃ cb ∈ allCB, cb.billing_entity ≠ "" ∧ cb.billing_entity ≠ current ∧
          cb.payment_date = s.created ∧ |optQ cb.amount - optQ s.amount| < 1/100) ∧
      ¬ (∃ cb ∈ allCB, sClientE s = cbClientE cb ∧
          |optQ s.amount - optQ cb.amount| < 1/100 ∧
          ∃ d1 d2, parseDMY s.created = some d1 ∧ parseDMY cb.payment_date = some d2 ∧
            |d1 - d2| ≤ 2)) := by
  have hRefund : isRefundTx s = true ↔
      (∃ a, s.amount = some a ∧ a < 0) ∨ s.type = TxType.refund := by
    rcases ha : s.amount with _ | a <;>
      simp [isRefundTx, ha]
  have hFee : isFeeTx s = true ↔ s.client_number = some "0" := by
    simp [isFeeTx]
  have hCross : allCB.any (crossPred current s) = true ↔
      ∃ cb ∈ allCB, cb.billing_entity ≠ "" ∧ cb.billing_entity ≠ current ∧
        cb.payment_date = s.created ∧ |optQ cb.amount - optQ s.amount| < 1/100 := by
    rw [List.any_eq_true]
    constructor
    · rintro ⟨cb, hcb, hp⟩
      simp only [crossPred, Bool.and_eq_true, bne_iff_ne, beq_iff_eq,
        decide_eq_true_eq] at hp
      exact ⟨cb, hcb, hp.1.1.1, hp.1.1.2, hp.1.2, hp.2⟩
    · rintro ⟨cb, hcb, h1, h2, h3, h4⟩
      refine ⟨cb, hcb, ?_⟩
      simp only [crossPred, Bool.and_eq_true, bne_iff_ne, beq_iff_eq,
        decide_eq_true_eq]
      exact ⟨⟨⟨h1, h2⟩, h3⟩, h4⟩
  have hNear : allCB.any (isNearMatch s) = true ↔
      ∃ cb ∈ allCB, sClientE s = cbClientE cb ∧
        |optQ s.amount - optQ cb.amount| < 1/100 ∧
        ∃ d1 d2, parseDMY s.created = some d1 ∧ parseDMY cb.payment_date = some d2 ∧
          |d1 - d2| ≤ 2 := by
    rw [List.any_eq_true]
    constructor
    · rintro ⟨cb, hcb, hp⟩
      simp only [isNearMatch, Bool.and_eq_true, beq_iff_eq, decide_eq_true_eq] at hp
      refine ⟨cb, hcb, hp.1.1, hp.1.2, ?_⟩
      rcases h1 : parseDMY s.created with _ | d1
      · rw [h1] at hp
        simp at hp
      · rcases h2 : parseDMY cb.payment_date with _ | d2
        · rw [h1, h2] at hp
          simp at hp
        · rw [h1, h2] at hp
          exact ⟨d1, d2, rfl, rfl, of_decide_eq_true hp.2⟩
    · rintro ⟨cb, hcb, h1, h2, d1, d2, hp1, hp2, hd⟩
      refine ⟨cb, hcb, ?_⟩
      simp only [isNearMatch, Bool.and_eq_true, beq_iff_eq, decide_eq_true_eq]
      refine ⟨⟨h1, h2⟩, ?_⟩
      rw [hp1, hp2]
      exact decide_eq_true hd
  constructor
  · intro cat
    rw [p3List, List.mem_filter, beq_iff_eq]
    exact and_iff_right hs
  unfold classifyTx
  split_ifs with h1 h2 h3 h4
  · exact ⟨iff_of_true rfl (hRefund.mp h1),
      iff_of_false (by simp) (fun h => h.1 (hRefund.mp h1)),
      iff_of_false (by simp) (fun h => h.1 (hRefund.mp h1)),
      iff_of_false (by simp) (fun h => h.1 (hRefund.mp h1)),
      iff_of_false (by simp) (fun h => h.1 (hRefund.mp h1))⟩
  · have hnR := fun hR => h1 (hRefund.mpr hR)
    exact ⟨iff_of_false (by simp) hnR,
      iff_of_true rfl ⟨hnR, hFee.mp h2⟩,
      iff_of_false (by simp) (fun h => h.2.1 (hFee.mp h2)),
      iff_of_false (by simp) (fun h => h.2.1 (hFee.mp h2)),
      iff_of_false (by simp) (fun h => h.2.1 (hFee.mp h2))⟩
  · have hnR := fun hR => h1 (hRefund.mpr hR)
    have hnF := fun hF => h2 (hFee.mpr hF)
    exact ⟨iff_of_false (by simp) hnR,
      iff_of_false (by simp) (fun h => hnF h.2),
      iff_of_true rfl ⟨hnR, hnF, hCross.mp h3⟩,
      iff_of_false (by simp) (fun h => h.2.2.1 (hCross.mp h3)),
      iff_of_false (by simp) (fun h => h.2.2.1 (hCross.mp h3))⟩
  · have hnR := fun hR => h1 (hRefund.mpr hR)
    have hnF := fun hF => h2 (hFee.mpr hF)
    have hnX := fun hX => h3 (hCross.mpr hX)
    exact ⟨iff_of_false (by simp) hnR,
      iff_of_false (by simp) (fun h => hnF h.2),
      iff_of_false (by simp) (fun h => hnX h.2.2),
      iff_of_true rfl ⟨hnR, hnF, hnX, hNear.mp h4⟩,
      iff_of_false (by simp) (fun h => h.2.2.2 (hNear.mp h4))⟩
  · have hnR := fun hR => h1 (hRefund.mpr hR)
    have hnF := fun hF => h2 (hFee.mpr hF)
    have hnX := fun hX => h3 (hCross.mpr hX)
    have hnN := fun hN => h4 (hNear.mpr hN)
    exact ⟨iff_of_false (by simp) hnR,
      iff_of_false (by simp) (fun h => hnF h.2),
      iff_of_false (by simp) (fun h => hnX h.2.2),
      iff_of_false (by simp) (fun h => hnN h.2.2.2),
      iff_of_true rfl ⟨hnR, hnF, hnX, hnN⟩⟩

/-- Witness for C7: a refund-typed entry with a negative amount is put in
the refund set and in no other set. -/
theorem C7_classifier_first_rule_partition_witness :
    (⟨1, some "5", none, TxType.refund, DS.good 3, some (-4), some "USD"⟩ : StripeTx) ∈
      p3List "Me" []
        [⟨1, some "5", none, TxType.refund, DS.good 3, some (-4), some "USD"⟩]
        P3Cat.refund ∧
    (⟨1, some "5", none, TxType.refund, DS.good 3, some (-4), some "USD"⟩ : StripeTx) ∉
      p3List "Me" []
        [⟨1, some "5", none, TxType.refund, DS.good 3, some (-4), some "USD"⟩]
        P3Cat.fee := by
  have h := C7_classifier_first_rule_partition "Me" []
    [⟨1, some "5", none, TxType.refund, DS.good 3, some (-4), some "USD"⟩]
    ⟨1, some "5", none, TxType.refund, DS.good 3, some (-4), some "USD"⟩
    (List.mem_singleton.mpr rfl)
  have hcat : classifyTx "Me" []
      ⟨1, some "5", none, TxType.refund, DS.good 3, some (-4), some "USD"⟩
      = P3Cat.refund :=
    (h.2.1).mpr (Or.inr rfl)
  refine ⟨(h.1 P3Cat.refund).mpr hcat, ?_⟩
  intro hmem
  have := (h.1 P3Cat.fee).mp hmem
  rw [hcat] at this
  cases this

/-! ## Generic one-shot matching fold

Every matching pass of the code walks the external entries in order,
looks for the first acceptable internal candidate in the not-yet-consumed
pool, and on success removes exactly that candidate.  `extractFirst`
models "find the first acceptable candidate and pop it";
`matchFold` models the pass, returning (pairs, unmatched externals,
remaining internals). -/

def extractFirst {β : Type} (p : β → Bool) : List β → Option (β × List β)
  | [] => none
  | x :: xs =>
    if p x then some (x, xs)
    else (extractFirst p xs).map (fun yr => (yr.1, x :: yr.2))

def matchFold {α β : Type} (find : α → List β → Option (β × List β)) :
    List α → List β → List (α × β) × List α × List β
  | [], avail => ([], [], avail)
  | a :: as, avail =>
    match find a avail with
    | some (b, rest) =>
      let r := matchFold find as rest
      ((a, b) :: r.1, r.2.1, r.2.2)
    | none =>
      let r := matchFold find as avail
      (r.1, a :: r.2.1, r.2.2)

/-! ### Generic lemmas -/

lemma extractFirst_none_iff {β : Type} (p : β → Bool) :
    ∀ l : List β, extractFirst p l = none ↔ ∀ b ∈ l, ¬ p b = true := by
  intro l
  induction l with
  | nil => simp [extractFirst]
  | cons x xs ih =>
    by_cases hx : p x = true
    · simp only [extractFirst, if_pos hx]
      constructor
      · intro h; cases h
      · intro h
        exact absurd hx (h x (List.mem_cons_self _ _))
    · rw [extractFirst, if_neg hx, Option.map_eq_none', ih]
      constructor
      · intro h b hb
        rcases List.mem_cons.mp hb with rfl | hb'
        · exact hx
        · exact h b hb'
      · intro h b hb
        exact h b (List.mem_cons_of_mem _ hb)

lemma extractFirst_some_decomp {β : Type} (p : β → Bool) :
    ∀ (l : List β) (b : β) (r : List β), extractFirst p l = some (b, r) →
      ∃ l1 l2, l = l1 ++ b :: l2 ∧ r = l1 ++ l2 ∧ p b = true ∧ ∀ x ∈ l1, ¬ p x = true := by
  intro l
  induction l with
  | nil => intro b r h; cases h
  | cons x xs ih =>
    intro b r h
    by_cases hx : p x = true
    · rw [extractFirst, if_pos hx] at h
      cases h
      exact ⟨[], xs, rfl, rfl, hx, by intro y hy; cases hy⟩
    · rw [extractFirst, if_neg hx, Option.map_eq_some'] at h
      rcases h with ⟨⟨y, ys⟩, hr, heq⟩
      cases heq
      rcases ih y ys hr with ⟨l1, l2, he, hre, hp, hl1⟩
      refine ⟨x :: l1, l2, by rw [List.cons_append, he], by rw [List.cons_append, hre], hp, ?_⟩
      intro z hz
      rcases List.mem_cons.mp hz with rfl | hz'
      · exact hx
      · exact hl1 z hz'

lemma extractFirst_some_mem {β : Type} {p : β → Bool} {l r : List β} {b : β}
    (h : extractFirst p l = some (b, r)) : p b = true ∧ b ∈ l ∧ r.Sublist l := by
  rcases extractFirst_some_decomp p l b r h with ⟨l1, l2, he, hre, hp, _⟩
  subst he hre
  exact ⟨hp, by simp, by
    refine List.Sublist.append (List.Sublist.refl l1) ?_
    exact List.sublist_cons_self b l2⟩

lemma extractFirst_some_filter {β : Type} [DecidableEq β] {p : β → Bool}
    {l r : List β} {b : β} (hnd : l.Nodup) (h : extractFirst p l = some (b, r)) :
    r = l.filter (fun x => decide (x ≠ b)) := by
  rcases extractFirst_some_decomp p l b r h with ⟨l1, l2, he, hre, _, _⟩
  subst he hre
  rw [List.filter_append, List.filter_cons]
  have hb1 : b ∉ l1 := by
    intro hb
    have := List.disjoint_of_nodup_append hnd
    exact this hb (List.mem_cons_self _ _)
  have hnd2 : (b :: l2).Nodup := (List.nodup_append.mp hnd).2.1
  have hb2 : b ∉ l2 := (List.nodup_cons.mp hnd2).1
  have h1 : l1.filter (fun x => decide (x ≠ b)) = l1 := by
    rw [List.filter_eq_self]
    intro x hx
    exact decide_eq_true (fun hxb => hb1 (hxb ▸ hx))
  have h2 : l2.filter (fun x => decide (x ≠ b)) = l2 := by
    rw [List.filter_eq_self]
    intro x hx
    exact decide_eq_true (fun hxb => hb2 (hxb ▸ hx))
  rw [show (decide (b ≠ b)) = false from by simp]
  rw [if_neg (by simp : ¬ (false = true))]
  rw [h1, h2]

/-- The conditions a pass's find function satisfies: on success the pool
shrinks (a sublist remains), and failure is monotone under shrinking the
pool. -/
def FindShrinks {α β : Type} (find : α → List β → Option (β × List β)) : Prop :=
  ∀ a l b r, find a l = some (b, r) → r.Sublist l

def FindMono {α β : Type} (find : α → List β → Option (β × List β)) : Prop :=
  ∀ a l l', l'.Sublist l → find a l = none → find a l' = none

lemma matchFold_avail_sublist {α β : Type} {find : α → List β → Option (β × List β)}
    (hs : FindShrinks find) :
    ∀ (S : List α) (C : List β), ((matchFold find S C).2.2).Sublist C := by
  intro S
  induction S with
  | nil => intro C; exact List.Sublist.refl C
  | cons a as ih =>
    intro C
    simp only [matchFold]
    rcases hf : find a C with _ | ⟨b, rest⟩ <;> simp only [hf]
    · exact ih C
    · exact (ih rest).trans (hs a C b rest hf)

lemma matchFold_pairs_fst_mem {α β : Type} {find : α → List β → Option (β × List β)} :
    ∀ (S : List α) (C : List β) (ab : α × β), ab ∈ (matchFold find S C).1 → ab.1 ∈ S := by
  intro S
  induction S with
  | nil => intro C ab h; cases h
  | cons a as ih =>
    intro C ab h
    simp only [matchFold] at h
    rcases hf : find a C with _ | ⟨b, rest⟩ <;> simp only [hf] at h
    · exact List.mem_cons_of_mem _ (ih C ab h)
    · rcases List.mem_cons.mp h with rfl | h2
      · exact List.mem_cons_self _ _
      · exact List.mem_cons_of_mem _ (ih rest ab h2)

/-- A find function that returns a candidate returns one from the pool. -/
def FindPicksMem {α β : Type} (find : α → List β → Option (β × List β)) : Prop :=
  ∀ a l b r, find a l = some (b, r) → b ∈ l

lemma matchFold_pairs_snd_mem {α β : Type} {find : α → List β → Option (β × List β)}
    (hs : FindShrinks find) (hpk : FindPicksMem find) :
    ∀ (S : List α) (C : List β) (ab : α × β), ab ∈ (matchFold find S C).1 → ab.2 ∈ C := by
  intro S
  induction S with
  | nil => intro C ab h; cases h
  | cons a as ih =>
    intro C ab h
    simp only [matchFold] at h
    rcases hf : find a C with _ | ⟨b, rest⟩ <;> simp only [hf] at h
    · exact ih C ab h
    · rcases List.mem_cons.mp h with rfl | h2
      · exact hpk a C b rest hf
      · exact (hs a C b rest hf).subset (ih rest ab h2)

lemma matchFold_pairs_prop {α β : Type} {find : α → List β → Option (β × List β)}
    (P : α → β → Prop) (hP : ∀ a l b r, find a l = some (b, r) → P a b) :
    ∀ (S : List α) (C : List β) (ab : α × β), ab ∈ (matchFold find S C).1 → P ab.1 ab.2 := by
  intro S
  induction S with
  | nil => intro C ab h; cases h
  | cons a as ih =>
    intro C ab h
    simp only [matchFold] at h
    rcases hf : find a C with _ | ⟨b, rest⟩ <;> simp only [hf] at h
    · exact ih C ab h
    · rcases List.mem_cons.mp h with rfl | h2
      · exact hP a C b rest hf
      · exact ih rest ab h2

lemma matchFold_us_mem {α β : Type} {find : α → List β → Option (β × List β)} :
    ∀ (S : List α) (C : List β) (a : α), a ∈ (matchFold find S C).2.1 → a ∈ S := by
  intro S
  induction S with
  | nil => intro C a h; cases h
  | cons x as ih =>
    intro C a h
    simp only [matchFold] at h
    rcases hf : find x C with _ | ⟨b, rest⟩ <;> simp only [hf] at h
    · rcases List.mem_cons.mp h with rfl | h2
      · exact List.mem_cons_self _ _
      · exact List.mem_cons_of_mem _ (ih C a h2)
    · exact List.mem_cons_of_mem _ (ih rest a h)

lemma matchFold_of_all_none {α β : Type} {find : α → List β → Option (β × List β)} :
    ∀ (S : List α) (C : List β), (∀ a ∈ S, find a C = none) →
      matchFold find S C = ([], S, C) := by
  intro S
  induction S with
  | nil => intro C _; rfl
  | cons a as ih =>
    intro C h
    simp only [matchFold, h a (List.mem_cons_self _ _),
      ih C (fun x hx => h x (List.mem_cons_of_mem _ hx))]

lemma matchFold_unmatched_find_none {α β : Type} {find : α → List β → Option (β × List β)}
    (hs : FindShrinks find) (hm : FindMono find) :
    ∀ (S : List α) (C : List β) (a : α), a ∈ (matchFold find S C).2.1 →
      find a (matchFold find S C).2.2 = none := by
  intro S
  induction S with
  | nil => intro C a h; cases h
  | cons x as ih =>
    intro C a h
    simp only [matchFold] at h ⊢
    rcases hf : find x C with _ | ⟨b, rest⟩ <;> simp only [hf] at h ⊢
    · rcases List.mem_cons.mp h with rfl | h2
      · exact hm a C _ (matchFold_avail_sublist hs as C) hf
      · exact ih C a h2
    · exact ih rest a h

/-- Re-running a pass on its own leftovers produces nothing new. -/
lemma matchFold_rerun {α β : Type} {find : α → List β → Option (β × List β)}
    (hs : FindShrinks find) (hm : FindMono find) (S : List α) (C : List β) :
    matchFold find (matchFold find S C).2.1 (matchFold find S C).2.2
      = ([], (matchFold find S C).2.1, (matchFold find S C).2.2) :=
  matchFold_of_all_none _ _ (fun a ha => matchFold_unmatched_find_none hs hm S C a ha)

lemma matchFold_cons_some {α β : Type} {find : α → List β → Option (β × List β)}
    {a : α} {as : List α} {C : List β} {b : β} {rest : List β}
    (hf : find a C = some (b, rest)) :
    matchFold find (a :: as) C =
      ((a, b) :: (matchFold find as rest).1,
       (matchFold find as rest).2.1, (matchFold find as rest).2.2) := by
  simp only [matchFold, hf]

lemma matchFold_cons_none {α β : Type} {find : α → List β → Option (β × List β)}
    {a : α} {as : List α} {C : List β} (hf : find a C = none) :
    matchFold find (a :: as) C =
      ((matchFold find as C).1, a :: (matchFold find as C).2.1,
       (matchFold find as C).2.2) := by
  simp only [matchFold, hf]

/-- The unmatched externals are exactly the inputs that did not end up as
the first component of a pair (distinct inputs assumed). -/
lemma matchFold_us_filter {α β : Type} [DecidableEq α]
    {find : α → List β → Option (β × List β)} :
    ∀ (S : List α) (C : List β), S.Nodup →
      (matchFold find S C).2.1
        = S.filter (fun a => decide (a ∉ (matchFold find S C).1.map Prod.fst)) := by
  intro S
  induction S with
  | nil => intro C _; rfl
  | cons a as ih =>
    intro C hnd
    have hnd' : as.Nodup := (List.nodup_cons.mp hnd).2
    have hna : a ∉ as := (List.nodup_cons.mp hnd).1
    rcases hf : find a C with _ | ⟨b, rest⟩
    · rw [matchFold_cons_none hf]
      rw [List.filter_cons]
      have hnotin : a ∉ (matchFold find as C).1.map Prod.fst := by
        intro hmem
        rcases List.mem_map.mp hmem with ⟨ab, hab, habe⟩
        exact hna (habe ▸ matchFold_pairs_fst_mem as C ab hab)
      rw [if_pos (by exact decide_eq_true hnotin)]
      rw [ih C hnd']
    · rw [matchFold_cons_some hf]
      rw [List.filter_cons]
      have hin : a ∈ ((a, b) :: (matchFold find as rest).1).map Prod.fst := by simp
      rw [if_neg (by simp [hin])]
      rw [ih rest hnd']
      apply List.filter_congr
      intro x hx
      have hxa : x ≠ a := fun hxa => hna (hxa ▸ hx)
      rw [decide_eq_decide]
      simp [List.mem_cons, hxa]

/-- A find function that removes exactly the (first occurrence of the)
candidate it picked. -/
def FindRemovesFirst {α β : Type} [DecidableEq β]
    (find : α → List β → Option (β × List β)) : Prop :=
  ∀ a l b r, l.Nodup → find a l = some (b, r) → r = l.filter (fun x => decide (x ≠ b))

/-- The remaining internals are exactly the pool entries that were not
consumed as the second component of a pair (distinct entries assumed). -/
lemma matchFold_uc_filter {α β : Type} [DecidableEq β]
    {find : α → List β → Option (β × List β)} (hrm : FindRemovesFirst find) :
    ∀ (S : List α) (C : List β), C.Nodup →
      (matchFold find S C).2.2
        = C.filter (fun c => decide (c ∉ (matchFold find S C).1.map Prod.snd)) := by
  intro S
  induction S with
  | nil =>
    intro C _
    rw [show (matchFold find [] C).2.2 = C from rfl,
      show (matchFold find ([] : List α) C).1 = [] from rfl]
    refine (List.filter_eq_self.mpr ?_).symm
    intro x _
    exact decide_eq_true (by simp)
  | cons a as ih =>
    intro C hnd
    rcases hf : find a C with _ | ⟨b, rest⟩
    · rw [matchFold_cons_none hf]
      exact ih C hnd
    · rw [matchFold_cons_some hf]
      have hrest := hrm a C b rest hnd hf
      have hndr : rest.Nodup := by
        rw [hrest]
        exact hnd.filter _
      rw [ih rest hndr, hrest, List.filter_filter]
      apply List.filter_congr
      intro x hx
      simp only [List.map_cons, List.mem_cons, decide_not]
      rw [Bool.and_comm]
      simp [not_or, Bool.and_comm]

lemma matchFold_congr {α β : Type} {f g : α → List β → Option (β × List β)}
    (h : ∀ a l, f a l = g a l) :
    ∀ (S : List α) (C : List β), matchFold f S C = matchFold g S C := by
  intro S
  induction S with
  | nil => intro C; rfl
  | cons a as ih =>
    intro C
    simp only [matchFold, h a C]
    rcases g a C with _ | ⟨b, rest⟩
    · simp only [ih C]
    · simp only [ih rest]

/-! ## Stage 1, standard variant (`perform_matching` / `is_perfect_match`) -/

/-- `str(cashbook_tx.client_id)` — note Python renders `None` as
`"None"`. -/
def cbClientRaw (c : CashTx) : String :=
  match c.client_id with
  | none => "None"
  | some n => toString n

/-- `is_perfect_match`: equal client strings (a `None` stripe client never
equals a string), equal raw date strings, amounts (read through `or 0`)
within 0.01.  NO currency comparison at all. -/
def is_perfect_match (s : StripeTx) (c : CashTx) : Bool :=
  (match s.client_number with
   | some v => v == cbClientRaw c
   | none => false) &&
  s.created == c.payment_date &&
  decide (|optQ s.amount - optQ c.amount| ≤ 1/100)

/-- The per-entry search of standard Stage 1: payment-failure-refunds are
never matched; otherwise the first perfectly matching available cashbook
entry is consumed. -/
def find1 (s : StripeTx) (avail : List CashTx) : Option (CashTx × List CashTx) :=
  if s.type == TxType.paymentFailureRefund then none
  else extractFirst (fun c => is_perfect_match s c) avail

/-- The matching loop of `perform_matching` (fresh run): pairs, unmatched
stripe (payment-failure-refunds included), remaining cashbook. -/
def stage1Run (stripe : List StripeTx) (cashbook : List CashTx) :
    List (StripeTx × CashTx) × List StripeTx × List CashTx :=
  matchFold find1 stripe cashbook

/-! ## Stage 1, EU variant (`perform_matching_eu`) -/

/-- Python's `round(x, 2)`: round half to even, on the rational model. -/
def round2 (q : ℚ) : ℚ :=
  let x : ℚ := 100 * q
  let f : ℤ := ⌊x⌋
  let r : ℚ := x - f
  ((if r < 1/2 then f else if 1/2 < r then f + 1 else if Even f then f else f + 1 : ℤ) : ℚ) / 100

/-- ASCII upper-casing, character by character (as Python's `.upper()`
behaves on the currency codes the data carries). -/
def upperStr (s : String) : String := String.mk (s.data.map Char.toUpper)

/-- `(x or '').upper()` on a nullable currency. -/
def upperC (c : Option String) : String :=
  match c with
  | none => ""
  | some s => upperStr s

/-- `str(stripe_tx.client_number) if stripe_tx.client_number else "0"`. -/
def sClientKey0 (s : StripeTx) : String :=
  match s.client_number with
  | none => "0"
  | some v => if v = "" then "0" else v

/-- `str(cashbook_tx.client_id) if cashbook_tx.client_id else "0"` — the
integer 0 is falsy. -/
def cbClientKey0 (c : CashTx) : String :=
  match c.client_id with
  | none => "0"
  | some n => if n = 0 then "0" else toString n

/-- The EU Stage-1 key of an external entry: parsed date (two accepted
formats), 2-decimal-rounded own amount, uppercased own currency; `none`
when the date fails to parse or the amount is missing. -/
def euSKey (s : StripeTx) : Option (String × Int × ℚ × String) :=
  match parseDMY s.created, s.amount with
  | some d, some a => some (sClientKey0 s, d, round2 a, upperC s.currency)
  | _, _ => none

/-- The EU Stage-1 key of an internal entry (entries failing to parse are
left out of the lookup). -/
def euCKey (c : CashTx) : Option (String × Int × ℚ × String) :=
  match parseDMY c.payment_date, c.amount with
  | some d, some a => some (cbClientKey0 c, d, round2 a, upperC c.currency)
  | _, _ => none

/-- The per-entry search of EU Stage 1: skip payment-failure-refunds and
unparseable entries; otherwise consume the first available cashbook entry
with the identical full key (the dict bucket preserves input order). -/
def find1EU (s : StripeTx) (avail : List CashTx) : Option (CashTx × List CashTx) :=
  if s.type == TxType.paymentFailureRefund then none
  else
    match euSKey s with
    | none => none
    | some k => extractFirst (fun c => euCKey c == some k) avail

def stage1RunEU (stripe : List StripeTx) (cashbook : List CashTx) :
    List (StripeTx × CashTx) × List StripeTx × List CashTx :=
  matchFold find1EU stripe cashbook

/-! ## Stage 2, standard variant (`perform_process2_matching`) -/

/-- `is_date_amount_match` (2-day tolerance): both dates parse, differ by
at most 2 days, amounts within 0.01. -/
def is_date_amount_match (s : StripeTx) (c : CashTx) : Bool :=
  match parseDMY s.created, parseDMY c.payment_date with
  | some d1, some d2 =>
      decide (|d1 - d2| ≤ 2) && decide (|optQ s.amount - optQ c.amount| ≤ 1/100)
  | _, _ => false

/-- `is_client_amount_match`: equal client strings (through `or ''`) and
amounts within 0.01, dates ignored. -/
def is_client_amount_match (s : StripeTx) (c : CashTx) : Bool :=
  sClientE s == cbClientE c && decide (|optQ s.amount - optQ c.amount| ≤ 1/100)

/-- Strategy 3: the cashbook entry belongs to a different subsidiary's
books (non-empty billing entity, different from the current one) and
date+amount match. -/
def crossSubPred (current : String) (s : StripeTx) (c : CashTx) : Bool :=
  c.billing_entity != "" && c.billing_entity != current && is_date_amount_match s c

/-- The per-entry search of standard Stage 2: the three strategies in
order, each scanning the available pool for its first acceptable entry. -/
def find2 (current : String) (s : StripeTx) (avail : List CashTx) :
    Option (CashTx × List CashTx) :=
  match extractFirst (fun c => is_date_amount_match s c) avail with
  | some r => some r
  | none =>
    match extractFirst (fun c => is_client_amount_match s c) avail with
    | some r => some r
    | none => extractFirst (fun c => crossSubPred current s c) avail

/-- The matching loop of `perform_process2_matching` over the entries not
yet matched: payment-failure-refunds are skipped entirely (they are
neither matched nor reported in this stage — the `continue` drops them),
modelled by filtering them from the input. -/
def p2Run (current : String) (stripe : List StripeTx) (cashbook : List CashTx) :
    List (StripeTx × CashTx) × List StripeTx × List CashTx :=
  matchFold (find2 current)
    (stripe.filter (fun s => !(s.type == TxType.paymentFailureRefund))) cashbook

/-! ## Stage 2, EU variant (`perform_process2_matching_eu`) -/

/-- A parsed external entry of `stripe_tx_data` (payment-failure-refunds
and entries with an unparseable date or missing amount are skipped). -/
structure SP where
  tx : StripeTx
  client : String
  desc : Option String
  date : Int
  amountR : ℚ
  currency : String
deriving DecidableEq, Repr

def parseSP (s : StripeTx) : Option SP :=
  if s.type == TxType.paymentFailureRefund then none
  else
    match parseDMY s.created, s.amount with
    | some d, some a =>
        some ⟨s, sClientKey0 s,
          (match s.description_client_id with
           | none => none
           | some v => if v = "" then none else some v),
          d, round2 a, upperC s.currency⟩
    | _, _ => none

/-- A parsed internal entry of the EU Stage-2 lookups (entries with an
unparseable date or a falsy amount — missing or zero — are skipped). -/
structure CP where
  tx : CashTx
  client : String
  date : Int
  amountR : ℚ
deriving DecidableEq, Repr

def parseCP (c : CashTx) : Option CP :=
  match parseDMY c.payment_date, c.amount with
  | some d, some a =>
      if a = 0 then none else some ⟨c, cbClientKey0 c, d, round2 a⟩
  | _, _ => none

/-- The AED currency guard of all EU Stage-2 passes: an AED external entry
may only pair with an AED internal entry. -/
def aedOk (sp : SP) (cp : CP) : Bool :=
  !(sp.currency == "AED") || (upperC cp.tx.currency == "AED")

/-- Pass A: description-derived client id + rounded amount, dates within
5 days; entries without a description-derived id are skipped. -/
def find2EU1 (sp : SP) (avail : List CP) : Option (CP × List CP) :=
  match sp.desc with
  | none => none
  | some dc =>
      extractFirst (fun cp => cp.client == dc && cp.amountR == sp.amountR &&
        decide (|cp.date - sp.date| ≤ 5) && aedOk sp cp) avail

/-- Pass B: primary client id + rounded amount, dates within 5 days. -/
def find2EU2 (sp : SP) (avail : List CP) : Option (CP × List CP) :=
  extractFirst (fun cp => cp.client == sp.client && cp.amountR == sp.amountR &&
    decide (|cp.date - sp.date| ≤ 5) && aedOk sp cp) avail

/-- Eligibility of a candidate at one checked date in Pass C. -/
def passCPred (sp : SP) (checkDate : Int) (cp : CP) : Bool :=
  cp.date == checkDate && cp.amountR == sp.amountR && aedOk sp cp

/-- Scan a list of day offsets in order; at each offset consume the first
available candidate with that date and the entry's rounded amount. -/
def findAtOffsets (offs : List Int) (sp : SP) (avail : List CP) :
    Option (CP × List CP) :=
  match offs with
  | [] => none
  | o :: os =>
    match extractFirst (passCPred sp (sp.date + o)) avail with
    | some r => some r
    | none => findAtOffsets os sp avail

/-- The offsets exactly as the code's loops generate them:
`for days_offset in range(6): for direction in [0, 1, -1]:` with the
`(0, direction ≠ 0)` combinations skipped — note the redundant re-checks
of offset 0. -/
def offsetsCode : List Int :=
  (List.range 6).flatMap (fun k =>
    [0, 1, -1].filterMap (fun dir =>
      if k = 0 ∧ dir ≠ 0 then none else some ((k : Int) * dir)))

/-- The offsets exactly as the claim words them. -/
def offsetsClaim : List Int := [0, 1, -1, 2, -2, 3, -3, 4, -4, 5, -5]

/-- Pass C's per-entry search as the code performs it. -/
def find2EU3 (sp : SP) (avail : List CP) : Option (CP × List CP) :=
  findAtOffsets offsetsCode sp avail

/-- The whole EU Stage-2 matcher: parse both sides, then run the three
passes in order, threading the available pool and the still-unmatched
entries. -/
def p2RunEU (stripe : List StripeTx) (cashbook : List CashTx) :
    List (SP × CP) × List SP × List CP :=
  let sps := stripe.filterMap parseSP
  let cps := cashbook.filterMap parseCP
  let r1 := matchFold find2EU1 sps cps
  let r2 := matchFold find2EU2 r1.2.1 r1.2.2
  let r3 := matchFold find2EU3 r2.2.1 r2.2.2
  (r1.1 ++ r2.1 ++ r3.1, r3.2.1, r3.2.2)

/-! ### Claim theorems for Stage-1 matching keys (C4) -/

/-- Counterexample to C4 as stated: the standard Stage-1 matcher
(`is_perfect_match`) performs no currency comparison at all, so it happily
pairs a USD external entry with an EUR internal entry of the same client,
date and amount. -/
theorem C4_counterexample :
    is_perfect_match ⟨1, some "1", none, TxType.charge, DS.good 5, some 50, some "USD"⟩
      ⟨7, some 1, DS.good 5, some 50, some "EUR", "X"⟩ = true ∧
    stage1Run [⟨1, some "1", none, TxType.charge, DS.good 5, some 50, some "USD"⟩]
      [⟨7, some 1, DS.good 5, some 50, some "EUR", "X"⟩]
      = ([(⟨1, some "1", none, TxType.charge, DS.good 5, some 50, some "USD"⟩,
           ⟨7, some 1, DS.good 5, some 50, some "EUR", "X"⟩)], [], []) ∧
    upperC (some "USD") ≠ upperC (some "EUR") := by
  have hcl : cbClientRaw ⟨7, some 1, DS.good 5, some 50, some "EUR", "X"⟩ = "1" := rfl
  have hpm : is_perfect_match ⟨1, some "1", none, TxType.charge, DS.good 5, some 50, some "USD"⟩
      ⟨7, some 1, DS.good 5, some 50, some "EUR", "X"⟩ = true := by
    simp [is_perfect_match, hcl, optQ]
  refine ⟨hpm, ?_, by decide⟩
  have hf : find1 ⟨1, some "1", none, TxType.charge, DS.good 5, some 50, some "USD"⟩
      [⟨7, some 1, DS.good 5, some 50, some "EUR", "X"⟩]
      = some (⟨7, some 1, DS.good 5, some 50, some "EUR", "X"⟩, []) := by
    rw [find1, if_neg (by decide)]
    simp [extractFirst, hpm]
  rw [stage1Run, matchFold_cons_some hf]
  rfl

/-- C4 (amended): in the EU Stage-1 variant every emitted pair agrees on
the full lookup key — client key, parsed date, amount rounded to two
decimals, and uppercased currency — so that variant indeed never pairs
entries of different currencies; the standard Stage-1 variant instead
pairs entries exactly when the client strings agree, the raw date strings
agree and the amounts differ by at most 0.01, with no currency constraint
(so it can pair different currencies, as the counterexample shows). -/
theorem C4_amended_stage1_key_agreement :
    (∀ (S : List StripeTx) (C : List CashTx) (p : StripeTx × CashTx),
       p ∈ (stage1RunEU S C).1 →
       ∃ cl d am cur, euSKey p.1 = some (cl, d, am, cur) ∧
         euCKey p.2 = some (cl, d, am, cur)) ∧
    (∀ (S : List StripeTx) (C : List CashTx) (p : StripeTx × CashTx),
       p ∈ (stage1Run S C).1 → is_perfect_match p.1 p.2 = true) ∧
    (∀ (s : StripeTx) (c : CashTx), is_perfect_match s c = true ↔
       s.client_number = some (cbClientRaw c) ∧ s.created = c.payment_date ∧
       |optQ s.amount - optQ c.amount| ≤ 1/100) := by
  refine ⟨?_, ?_, ?_⟩
  · intro S C p hp
    refine matchFold_pairs_prop
      (fun s c => ∃ cl d am cur, euSKey s = some (cl, d, am, cur) ∧
        euCKey c = some (cl, d, am, cur)) ?_ S C p hp
    intro a l b r hf
    rw [find1EU] at hf
    split at hf
    · cases hf
    · rcases hk : euSKey a with _ | k
      · rw [hk] at hf
        cases hf
      · rw [hk] at hf
        simp only [] at hf
        have := (extractFirst_some_mem hf).1
        have hce : euCKey b = some k := by simpa using this
        obtain ⟨cl, d, am, cur⟩ := k
        exact ⟨cl, d, am, cur, rfl, hce⟩
  · intro S C p hp
    refine matchFold_pairs_prop (fun s c => is_perfect_match s c = true) ?_ S C p hp
    intro a l b r hf
    rw [find1] at hf
    split at hf
    · cases hf
    · exact (extractFirst_some_mem hf).1
  · intro s c
    rcases hv : s.client_number with _ | v
    · simp [is_perfect_match, hv]
    · simp [is_perfect_match, hv, Bool.and_eq_true, beq_iff_eq, decide_eq_true_eq,
        and_assoc]

/-- Witness for the amended C4, at one matching pair per variant. -/
theorem C4_amended_stage1_key_agreement_witness :
    ((⟨1, some "2", none, TxType.charge, DS.good 5, some 50, some "USD"⟩ : StripeTx),
     (⟨7, some 2, DS.good 5, some 50, some "usd", "X"⟩ : CashTx)) ∈
      (stage1RunEU [⟨1, some "2", none, TxType.charge, DS.good 5, some 50, some "USD"⟩]
        [⟨7, some 2, DS.good 5, some 50, some "usd", "X"⟩]).1 ∧
    (∃ cl d am cur,
      euSKey ⟨1, some "2", none, TxType.charge, DS.good 5, some 50, some "USD"⟩
        = some (cl, d, am, cur) ∧
      euCKey ⟨7, some 2, DS.good 5, some 50, some "usd", "X"⟩ = some (cl, d, am, cur)) ∧
    ((⟨2, some "2", none, TxType.charge, DS.good 5, some 50, some "USD"⟩ : StripeTx),
     (⟨8, some 2, DS.good 5, some 50, some "USD", "X"⟩ : CashTx)) ∈
      (stage1Run [⟨2, some "2", none, TxType.charge, DS.good 5, some 50, some "USD"⟩]
        [⟨8, some 2, DS.good 5, some 50, some "USD", "X"⟩]).1 ∧
    is_perfect_match ⟨2, some "2", none, TxType.charge, DS.good 5, some 50, some "USD"⟩
      ⟨8, some 2, DS.good 5, some 50, some "USD", "X"⟩ = true := by
  have h2 : toString (2 : Int) = "2" := rfl
  have hsk : euSKey ⟨1, some "2", none, TxType.charge, DS.good 5, some 50, some "USD"⟩
      = some ("2", 5, round2 50, upperStr "USD") := by
    simp [euSKey, parseDMY, sClientKey0, upperC]
  have hck : euCKey ⟨7, some 2, DS.good 5, some 50, some "usd", "X"⟩
      = some ("2", 5, round2 50, upperStr "USD") := by
    have : upperStr "usd" = upperStr "USD" := rfl
    simp [euCKey, parseDMY, cbClientKey0, upperC, h2, this]
  have hfEU : find1EU ⟨1, some "2", none, TxType.charge, DS.good 5, some 50, some "USD"⟩
      [⟨7, some 2, DS.good 5, some 50, some "usd", "X"⟩]
      = some (⟨7, some 2, DS.good 5, some 50, some "usd", "X"⟩, []) := by
    rw [find1EU, if_neg (by decide)]
    simp only [hsk]
    simp [extractFirst, hck]
  have hmemEU : ((⟨1, some "2", none, TxType.charge, DS.good 5, some 50, some "USD"⟩ : StripeTx),
      (⟨7, some 2, DS.good 5, some 50, some "usd", "X"⟩ : CashTx)) ∈
      (stage1RunEU [⟨1, some "2", none, TxType.charge, DS.good 5, some 50, some "USD"⟩]
        [⟨7, some 2, DS.good 5, some 50, some "usd", "X"⟩]).1 := by
    rw [stage1RunEU, matchFold_cons_some hfEU]
    exact List.mem_cons_self _ _
  have hclr : cbClientRaw ⟨8, some 2, DS.good 5, some 50, some "USD", "X"⟩ = "2" := rfl
  have hpm : is_perfect_match ⟨2, some "2", none, TxType.charge, DS.good 5, some 50, some "USD"⟩
      ⟨8, some 2, DS.good 5, some 50, some "USD", "X"⟩ = true := by
    simp [is_perfect_match, hclr, optQ]
  have hfStd : find1 ⟨2, some "2", none, TxType.charge, DS.good 5, some 50, some "USD"⟩
      [⟨8, some 2, DS.good 5, some 50, some "USD", "X"⟩]
      = some (⟨8, some 2, DS.good 5, some 50, some "USD", "X"⟩, []) := by
    rw [find1, if_neg (by decide)]
    simp [extractFirst, hpm]
  have hmemStd : ((⟨2, some "2", none, TxType.charge, DS.good 5, some 50, some "USD"⟩ : StripeTx),
      (⟨8, some 2, DS.good 5, some 50, some "USD", "X"⟩ : CashTx)) ∈
      (stage1Run [⟨2, some "2", none, TxType.charge, DS.good 5, some 50, some "USD"⟩]
        [⟨8, some 2, DS.good 5, some 50, some "USD", "X"⟩]).1 := by
    rw [stage1Run, matchFold_cons_some hfStd]
    exact List.mem_cons_self _ _
  exact ⟨hmemEU,
    C4_amended_stage1_key_agreement.1 _ _ _ hmemEU,
    hmemStd,
    C4_amended_stage1_key_agreement.2.1 _ _ _ hmemStd⟩

/-! ### Claim theorem for Pass C's date-offset order (C8) -/

lemma offsetsCode_eval :
    offsetsCode = [0, 0, 1, -1, 0, 2, -2, 0, 3, -3, 0, 4, -4, 0, 5, -5] := by
  decide

/-- Scanning the code's offset list (with its redundant re-checks of
offset 0) finds the same candidate as scanning the claim's clean offset
list 0, +1, −1, … ±5: a re-check of offset 0 against the same pool finds
nothing new. -/
lemma findAtOffsets_code_eq_claim (sp : SP) (avail : List CP) :
    findAtOffsets offsetsCode sp avail = findAtOffsets offsetsClaim sp avail := by
  rw [offsetsCode_eval]
  rcases h : extractFirst (passCPred sp (sp.date + 0)) avail with _ | r <;>
    have h' : extractFirst (passCPred sp sp.date) avail
      = extractFirst (passCPred sp (sp.date + 0)) avail := by rw [add_zero]
  · rw [h] at h'
    simp [findAtOffsets, offsetsClaim, h']
  · rw [h] at h'
    simp [findAtOffsets, offsetsClaim, h']

/-- C8: Pass C of the EU Stage-2 matcher examines, for each
still-unmatched external entry, the candidate dates in the offset order
0, +1, −1, +2, −2 … up to ±5 days, and matches the first available
candidate (date + rounded amount + currency-guard eligible, in pool
order) at the smallest offset: the pass as coded equals the pass driven
by the claim's offset list, and a hit is an eligible member of the pool. -/
theorem C8_passC_offset_order :
    (∀ (sps : List SP) (avail : List CP),
      matchFold find2EU3 sps avail
        = matchFold (fun sp av => findAtOffsets offsetsClaim sp av) sps avail) ∧
    (∀ (sp : SP) (avail : List CP),
      find2EU3 sp avail = findAtOffsets offsetsClaim sp avail) ∧
    (∀ (sp : SP) (avail : List CP) (o : Int) (c : CP) (rest : List CP),
      extractFirst (passCPred sp (sp.date + o)) avail = some (c, rest) →
        c ∈ avail ∧ c.date = sp.date + o ∧ c.amountR = sp.amountR ∧
        aedOk sp c = true) := by
  refine ⟨?_, ?_, ?_⟩
  · intro sps avail
    exact matchFold_congr (fun sp av => findAtOffsets_code_eq_claim sp av) sps avail
  · intro sp avail
    exact findAtOffsets_code_eq_claim sp avail
  · intro sp avail o c rest h
    obtain ⟨hp, hmem, _⟩ := extractFirst_some_mem h
    simp only [passCPred, Bool.and_eq_true, beq_iff_eq] at hp
    exact ⟨hmem, hp.1.1, hp.1.2, hp.2⟩

/-- Witness for C8 at a one-candidate pool hit at offset 0. -/
theorem C8_passC_offset_order_witness :
    find2EU3 ⟨⟨1, none, none, TxType.charge, DS.good 10, some 50, some "USD"⟩,
        "1", none, 10, 50, "USD"⟩
      [⟨⟨2, some 1, DS.good 10, some 50, some "USD", "X"⟩, "1", 10, 50⟩]
      = findAtOffsets offsetsClaim
          ⟨⟨1, none, none, TxType.charge, DS.good 10, some 50, some "USD"⟩,
            "1", none, 10, 50, "USD"⟩
          [⟨⟨2, some 1, DS.good 10, some 50, some "USD", "X"⟩, "1", 10, 50⟩] ∧
    (⟨⟨2, some 1, DS.good 10, some 50, some "USD", "X"⟩, "1", 10, 50⟩ : CP) ∈
      [(⟨⟨2, some 1, DS.good 10, some 50, some "USD", "X"⟩, "1", 10, 50⟩ : CP)] ∧
    (10 : Int) = 10 + 0 ∧ (50 : ℚ) = 50 ∧
    aedOk ⟨⟨1, none, none, TxType.charge, DS.good 10, some 50, some "USD"⟩,
        "1", none, 10, 50, "USD"⟩
      ⟨⟨2, some 1, DS.good 10, some 50, some "USD", "X"⟩, "1", 10, 50⟩ = true := by
  have hext : extractFirst
      (passCPred ⟨⟨1, none, none, TxType.charge, DS.good 10, some 50, some "USD"⟩,
        "1", none, 10, 50, "USD"⟩ ((10 : Int) + 0))
      [⟨⟨2, some 1, DS.good 10, some 50, some "USD", "X"⟩, "1", 10, 50⟩]
      = some (⟨⟨2, some 1, DS.good 10, some 50, some "USD", "X"⟩, "1", 10, 50⟩, []) := by
    simp [extractFirst, passCPred, aedOk]
  have h3 := C8_passC_offset_order.2.2
    ⟨⟨1, none, none, TxType.charge, DS.good 10, some 50, some "USD"⟩,
      "1", none, 10, 50, "USD"⟩
    [⟨⟨2, some 1, DS.good 10, some 50, some "USD", "X"⟩, "1", 10, 50⟩] 0
    ⟨⟨2, some 1, DS.good 10, some 50, some "USD", "X"⟩, "1", 10, 50⟩ [] hext
  exact ⟨C8_passC_offset_order.2.1 _ _, h3.1, h3.2.1, h3.2.2.1, h3.2.2.2⟩

/-! ### Claim theorem for the payment-failure-refund exclusion (C9) -/

/-- C9: no pair produced by Stage 1 (standard or EU) or by any Stage-2
pass (standard non-tolerant variant, or any of the three EU tolerant
passes) contains an external entry of kind payment-failure-refund. -/
theorem C9_payment_failure_refund_never_matched :
    (∀ (S : List StripeTx) (C : List CashTx) (p : StripeTx × CashTx),
      p ∈ (stage1Run S C).1 → p.1.type ≠ TxType.paymentFailureRefund) ∧
    (∀ (S : List StripeTx) (C : List CashTx) (p : StripeTx × CashTx),
      p ∈ (stage1RunEU S C).1 → p.1.type ≠ TxType.paymentFailureRefund) ∧
    (∀ (current : String) (S : List StripeTx) (C : List CashTx) (p : StripeTx × CashTx),
      p ∈ (p2Run current S C).1 → p.1.type ≠ TxType.paymentFailureRefund) ∧
    (∀ (S : List StripeTx) (C : List CashTx) (p : SP × CP),
      p ∈ (p2RunEU S C).1 → p.1.tx.type ≠ TxType.paymentFailureRefund) := by
  have hfind1 : ∀ (a : StripeTx) (l : List CashTx) (b : CashTx) (r : List CashTx),
      find1 a l = some (b, r) → a.type ≠ TxType.paymentFailureRefund := by
    intro a l b r hf
    rw [find1] at hf
    split at hf
    · cases hf
    · rename_i hty
      simpa using hty
  have hfind1EU : ∀ (a : StripeTx) (l : List CashTx) (b : CashTx) (r : List CashTx),
      find1EU a l = some (b, r) → a.type ≠ TxType.paymentFailureRefund := by
    intro a l b r hf
    rw [find1EU] at hf
    split at hf
    · cases hf
    · rename_i hty
      simpa using hty
  have hparse : ∀ (s : StripeTx) (sp : SP), parseSP s = some sp →
      sp.tx.type ≠ TxType.paymentFailureRefund := by
    intro s sp hp
    rw [parseSP] at hp
    split at hp
    · cases hp
    · rename_i hty
      rcases h1 : parseDMY s.created with _ | d <;>
        rcases h2 : s.amount with _ | a <;>
        rw [h1, h2] at hp <;>
        simp only [] at hp
      · cases hp
      · cases hp
      · cases hp
      · cases hp
        simpa using hty
  have hsps : ∀ (S : List StripeTx) (sp : SP), sp ∈ S.filterMap parseSP →
      sp.tx.type ≠ TxType.paymentFailureRefund := by
    intro S sp hmem
    rcases List.mem_filterMap.mp hmem with ⟨s, _, hp⟩
    exact hparse s sp hp
  refine ⟨?_, ?_, ?_, ?_⟩
  · intro S C p hp
    exact matchFold_pairs_prop (fun a _ => a.type ≠ TxType.paymentFailureRefund)
      (fun a l b r hf => hfind1 a l b r hf) S C p hp
  · intro S C p hp
    exact matchFold_pairs_prop (fun a _ => a.type ≠ TxType.paymentFailureRefund)
      (fun a l b r hf => hfind1EU a l b r hf) S C p hp
  · intro current S C p hp
    have hfst := matchFold_pairs_fst_mem _ _ p hp
    have := List.of_mem_filter hfst
    simpa using this
  · intro S C p hp
    simp only [p2RunEU, List.mem_append] at hp
    rcases hp with (hp | hp) | hp
    · have hfst := matchFold_pairs_fst_mem _ _ p hp
      exact hsps S p.1 hfst
    · have hfst := matchFold_pairs_fst_mem _ _ p hp
      have := matchFold_us_mem _ _ p.1 hfst
      exact hsps S p.1 this
    · have hfst := matchFold_pairs_fst_mem _ _ p hp
      have h2 := matchFold_us_mem _ _ p.1 hfst
      have h1 := matchFold_us_mem _ _ p.1 h2
      exact hsps S p.1 h1

/-- Witness for C9, at one matched pair per matcher variant (for the EU
Stage-2 matcher, a Pass-B pair). -/
theorem C9_payment_failure_refund_never_matched_witness :
    (⟨2, some "2", none, TxType.charge, DS.good 5, some 50, some "USD"⟩ : StripeTx).type
        ≠ TxType.paymentFailureRefund ∧
    (⟨1, some "2", none, TxType.charge, DS.good 5, some 50, some "USD"⟩ : StripeTx).type
        ≠ TxType.paymentFailureRefund ∧
    (⟨3, some "3", none, TxType.charge, DS.good 5, some 50, some "USD"⟩ : StripeTx).type
        ≠ TxType.paymentFailureRefund ∧
    (⟨⟨4, some "4", none, TxType.charge, DS.good 6, some 50, some "USD"⟩,
        "4", none, 6, 50, "USD"⟩ : SP).tx.type ≠ TxType.paymentFailureRefund := by
  have h := C9_payment_failure_refund_never_matched
  -- standard Stage 1
  have hclr : cbClientRaw ⟨8, some 2, DS.good 5, some 50, some "USD", "X"⟩ = "2" := rfl
  have hpm : is_perfect_match ⟨2, some "2", none, TxType.charge, DS.good 5, some 50, some "USD"⟩
      ⟨8, some 2, DS.good 5, some 50, some "USD", "X"⟩ = true := by
    simp [is_perfect_match, hclr, optQ]
  have hfStd : find1 ⟨2, some "2", none, TxType.charge, DS.good 5, some 50, some "USD"⟩
      [⟨8, some 2, DS.good 5, some 50, some "USD", "X"⟩]
      = some (⟨8, some 2, DS.good 5, some 50, some "USD", "X"⟩, []) := by
    rw [find1, if_neg (by decide)]
    simp [extractFirst, hpm]
  have hmemStd : ((⟨2, some "2", none, TxType.charge, DS.good 5, some 50, some "USD"⟩ : StripeTx),
      (⟨8, some 2, DS.good 5, some 50, some "USD", "X"⟩ : CashTx)) ∈
      (stage1Run [⟨2, some "2", none, TxType.charge, DS.good 5, some 50, some "USD"⟩]
        [⟨8, some 2, DS.good 5, some 50, some "USD", "X"⟩]).1 := by
    rw [stage1Run, matchFold_cons_some hfStd]
    exact List.mem_cons_self _ _
  -- EU Stage 1
  have h2i : toString (2 : Int) = "2" := rfl
  have hsk : euSKey ⟨1, some "2", none, TxType.charge, DS.good 5, some 50, some "USD"⟩
      = some ("2", 5, round2 50, upperStr "USD") := by
    simp [euSKey, parseDMY, sClientKey0, upperC]
  have hck : euCKey ⟨7, some 2, DS.good 5, some 50, some "USD", "X"⟩
      = some ("2", 5, round2 50, upperStr "USD") := by
    simp [euCKey, parseDMY, cbClientKey0, upperC, h2i]
  have hfEU : find1EU ⟨1, some "2", none, TxType.charge, DS.good 5, some 50, some "USD"⟩
      [⟨7, some 2, DS.good 5, some 50, some "USD", "X"⟩]
      = some (⟨7, some 2, DS.good 5, some 50, some "USD", "X"⟩, []) := by
    rw [find1EU, if_neg (by decide)]
    simp only [hsk]
    simp [extractFirst, hck]
  have hmemEU : ((⟨1, some "2", none, TxType.charge, DS.good 5, some 50, some "USD"⟩ : StripeTx),
      (⟨7, some 2, DS.good 5, some 50, some "USD", "X"⟩ : CashTx)) ∈
      (stage1RunEU [⟨1, some "2", none, TxType.charge, DS.good 5, some 50, some "USD"⟩]
        [⟨7, some 2, DS.good 5, some 50, some "USD", "X"⟩]).1 := by
    rw [stage1RunEU, matchFold_cons_some hfEU]
    exact List.mem_cons_self _ _
  -- standard Stage 2 (strategy 1: date+amount)
  have hdam : is_date_amount_match ⟨3, some "3", none, TxType.charge, DS.good 5, some 50, some "USD"⟩
      ⟨9, some 4, DS.good 6, some 50, some "USD", "X"⟩ = true := by
    simp [is_date_amount_match, parseDMY, optQ]
  have hf2 : find2 "cur" ⟨3, some "3", none, TxType.charge, DS.good 5, some 50, some "USD"⟩
      [⟨9, some 4, DS.good 6, some 50, some "USD", "X"⟩]
      = some (⟨9, some 4, DS.good 6, some 50, some "USD", "X"⟩, []) := by
    rw [find2]
    have : extractFirst
        (fun c => is_date_amount_match
          ⟨3, some "3", none, TxType.charge, DS.good 5, some 50, some "USD"⟩ c)
        [⟨9, some 4, DS.good 6, some 50, some "USD", "X"⟩]
        = some (⟨9, some 4, DS.good 6, some 50, some "USD", "X"⟩, []) := by
      simp [extractFirst, hdam]
    rw [this]
  have hmemP2 : ((⟨3, some "3", none, TxType.charge, DS.good 5, some 50, some "USD"⟩ : StripeTx),
      (⟨9, some 4, DS.good 6, some 50, some "USD", "X"⟩ : CashTx)) ∈
      (p2Run "cur" [⟨3, some "3", none, TxType.charge, DS.good 5, some 50, some "USD"⟩]
        [⟨9, some 4, DS.good 6, some 50, some "USD", "X"⟩]).1 := by
    rw [p2Run]
    rw [show ([⟨3, some "3", none, TxType.charge, DS.good 5, some 50, some "USD"⟩] : List StripeTx).filter
        (fun s => !(s.type == TxType.paymentFailureRefund))
        = [⟨3, some "3", none, TxType.charge, DS.good 5, some 50, some "USD"⟩] from rfl]
    rw [matchFold_cons_some hf2]
    exact List.mem_cons_self _ _
  -- EU Stage 2, Pass B
  have hps : parseSP ⟨4, some "4", none, TxType.charge, DS.good 6, some 50, some "USD"⟩
      = some ⟨⟨4, some "4", none, TxType.charge, DS.good 6, some 50, some "USD"⟩,
          "4", none, 6, round2 50, upperStr "USD"⟩ := by
    rw [parseSP, if_neg (by decide)]
    simp [parseDMY, sClientKey0, upperC]
  have hpc : parseCP ⟨10, some 4, DS.good 6, some 50, some "USD", "X"⟩
      = some ⟨⟨10, some 4, DS.good 6, some 50, some "USD", "X"⟩, "4", 6, round2 50⟩ := by
    rw [parseCP]
    have h4i : toString (4 : Int) = "4" := rfl
    simp [parseDMY, cbClientKey0, h4i]
  have hmemP2EU : ((⟨⟨4, some "4", none, TxType.charge, DS.good 6, some 50, some "USD"⟩,
        "4", none, 6, round2 50, upperStr "USD"⟩ : SP),
      (⟨⟨10, some 4, DS.good 6, some 50, some "USD", "X"⟩, "4", 6, round2 50⟩ : CP)) ∈
      (p2RunEU [⟨4, some "4", none, TxType.charge, DS.good 6, some 50, some "USD"⟩]
        [⟨10, some 4, DS.good 6, some 50, some "USD", "X"⟩]).1 := by
    rw [p2RunEU]
    have hsps : ([⟨4, some "4", none, TxType.charge, DS.good 6, some 50, some "USD"⟩]
        : List StripeTx).filterMap parseSP
        = [⟨⟨4, some "4", none, TxType.charge, DS.good 6, some 50, some "USD"⟩,
            "4", none, 6, round2 50, upperStr "USD"⟩] := by
      simp [List.filterMap, hps]
    have hcps : ([⟨10, some 4, DS.good 6, some 50, some "USD", "X"⟩]
        : List CashTx).filterMap parseCP
        = [⟨⟨10, some 4, DS.good 6, some 50, some "USD", "X"⟩, "4", 6, round2 50⟩] := by
      simp [List.filterMap, hpc]
    simp only [hsps, hcps]
    have hf1 : find2EU1 ⟨⟨4, some "4", none, TxType.charge, DS.good 6, some 50, some "USD"⟩,
        "4", none, 6, round2 50, upperStr "USD"⟩
        [⟨⟨10, some 4, DS.good 6, some 50, some "USD", "X"⟩, "4", 6, round2 50⟩] = none := rfl
    have hfB : find2EU2 ⟨⟨4, some "4", none, TxType.charge, DS.good 6, some 50, some "USD"⟩,
        "4", none, 6, round2 50, upperStr "USD"⟩
        [⟨⟨10, some 4, DS.good 6, some 50, some "USD", "X"⟩, "4", 6, round2 50⟩]
        = some (⟨⟨10, some 4, DS.good 6, some 50, some "USD", "X"⟩, "4", 6, round2 50⟩, []) := by
      rw [find2EU2]
      have hup : (upperStr "USD" == "AED") = false := rfl
      simp [extractFirst, aedOk, hup, upperC]
    rw [matchFold_cons_none hf1]
    rw [show (matchFold find2EU1 ([] : List SP)
        [(⟨⟨10, some 4, DS.good 6, some 50, some "USD", "X"⟩, "4", 6, round2 50⟩ : CP)])
        = ([], [], [⟨⟨10, some 4, DS.good 6, some 50, some "USD", "X"⟩, "4", 6, round2 50⟩])
        from rfl]
    simp only []
    rw [matchFold_cons_some hfB]
    simp
  exact ⟨h.1 _ _ _ hmemStd, h.2.1 _ _ _ hmemEU, h.2.2.1 _ _ _ _ hmemP2,
    h.2.2.2 _ _ _ hmemP2EU⟩

/-! ## Stage orchestration over the per-(job, entity) database slice (C3)

`perform_matching` guards on existing Process-1 `MatchedTransaction`
rows and, when they exist, returns them without writing anything;
otherwise it inserts one Process-1 row per pair and appends a Process-1
`ReconciliationResults` row.  `perform_process2_matching` has no such
guard: it filters out already-matched ids, runs the Stage-2 strategies,
inserts one Process-2 row per new pair and appends a Process-2
`ReconciliationResults` row unconditionally.  `perform_process3_analysis`
inserts no matched rows and appends a Process-3 `ReconciliationResults`
row unconditionally. -/

/-- One `MatchedTransaction` row (its stage-relevant columns). -/
structure MTRow where
  process_number : Nat
  stripe_id : Nat
  cashbook_id : Nat
deriving DecidableEq, Repr

/-- The database slice of one (job, entity) scope: the
`MatchedTransaction` rows and the `process_number` of each
`ReconciliationResults` row, both in insertion order. -/
structure RDB where
  mt : List MTRow
  summaries : List Nat
deriving DecidableEq, Repr

/-- `MatchedTransaction.query.filter_by(job_id, subsidiary_id,
process_number=1)`. -/
def stage1Existing (db : RDB) : List MTRow :=
  db.mt.filter (fun m => m.process_number == 1)

/-- `perform_matching`, database effects: with existing Process-1 rows it
returns them and writes nothing; otherwise it runs the Stage-1 matcher,
inserts one Process-1 row per pair and appends the Process-1 summary. -/
def runStage1 (stripe : List StripeTx) (cashbook : List CashTx) (db : RDB) :
    RDB × List MTRow :=
  if stage1Existing db ≠ [] then (db, stage1Existing db)
  else
    let newRows := (stage1Run stripe cashbook).1.map
      (fun p => MTRow.mk 1 p.1.id p.2.id)
    (⟨db.mt ++ newRows, db.summaries ++ [1]⟩, newRows)

/-- `perform_process2_matching`, database effects: it drops externals and
internals whose ids already occur in any matched row, runs the Stage-2
strategies, inserts one Process-2 row per new pair, and appends the
Process-2 summary row unconditionally. -/
def runStage2 (current : String) (stripe : List StripeTx) (cashbook : List CashTx)
    (db : RDB) : RDB × List MTRow :=
  let us := stripe.filter (fun s => !(db.mt.any (fun m => m.stripe_id == s.id)))
  let uc := cashbook.filter (fun c => !(db.mt.any (fun m => m.cashbook_id == c.id)))
  let newRows := (p2Run current us uc).1.map (fun p => MTRow.mk 2 p.1.id p.2.id)
  (⟨db.mt ++ newRows, db.summaries ++ [2]⟩, newRows)

/-- `perform_process3_analysis`, database effects: it classifies the
still-unmatched externals, inserts no matched rows, and appends the
Process-3 summary row unconditionally. -/
def runStage3 (current : String) (stripe : List StripeTx) (cashbook : List CashTx)
    (db : RDB) : RDB × List (StripeTx × P3Cat) :=
  let us := stripe.filter (fun s => !(db.mt.any (fun m => m.stripe_id == s.id)))
  (⟨db.mt, db.summaries ++ [3]⟩, us.map (fun s => (s, classifyTx current cashbook s)))

/-! ### Properties of the Stage-2 finder -/

lemma extractFirst_mono {β : Type} {p : β → Bool} {l l' : List β}
    (hsub : l'.Sublist l) (h : extractFirst p l = none) : extractFirst p l' = none := by
  rw [extractFirst_none_iff] at h ⊢
  intro b hb
  exact h b (hsub.subset hb)

lemma find2_some_cases {current : String} {s : StripeTx} {l : List CashTx}
    {b : CashTx} {r : List CashTx} (h : find2 current s l = some (b, r)) :
    extractFirst (fun c => is_date_amount_match s c) l = some (b, r) ∨
    extractFirst (fun c => is_client_amount_match s c) l = some (b, r) ∨
    extractFirst (fun c => crossSubPred current s c) l = some (b, r) := by
  rw [find2] at h
  rcases h1 : extractFirst (fun c => is_date_amount_match s c) l with _ | r1
  · rw [h1] at h
    rcases h2 : extractFirst (fun c => is_client_amount_match s c) l with _ | r2
    · rw [h2] at h
      exact Or.inr (Or.inr h)
    · rw [h2, Option.some_inj] at h
      subst h
      exact Or.inr (Or.inl rfl)
  · rw [h1, Option.some_inj] at h
    subst h
    exact Or.inl rfl

lemma find2_shrinks (current : String) : FindShrinks (find2 current) := by
  intro a l b r h
  rcases find2_some_cases h with h | h | h <;> exact (extractFirst_some_mem h).2.2

lemma find2_picks (current : String) : FindPicksMem (find2 current) := by
  intro a l b r h
  rcases find2_some_cases h with h | h | h <;> exact (extractFirst_some_mem h).2.1

lemma find2_removes (current : String) : FindRemovesFirst (find2 current) := by
  intro a l b r hnd h
  rcases find2_some_cases h with h | h | h <;> exact extractFirst_some_filter hnd h

lemma find2_mono (current : String) : FindMono (find2 current) := by
  intro a l l' hsub h
  rw [find2] at h ⊢
  rcases h1 : extractFirst (fun c => is_date_amount_match a c) l with _ | r1
  · rw [h1] at h
    rcases h2 : extractFirst (fun c => is_client_amount_match a c) l with _ | r2
    · rw [h2] at h
      simp only [extractFirst_mono hsub h1, extractFirst_mono hsub h2,
        extractFirst_mono hsub h]
    · rw [h2] at h
      cases h
  · rw [h1] at h
    cases h

/-! ### Re-running a pass after recording matched ids -/

/-- Filtering the pass inputs by "id not among the recorded pairs' ids"
recovers exactly the pass's own unmatched leftovers, when ids are
distinct. -/
lemma matchFold_idfilter {α β : Type} [DecidableEq α] [DecidableEq β]
    {find : α → List β → Option (β × List β)}
    (hs : FindShrinks find) (hpk : FindPicksMem find) (hrm : FindRemovesFirst find)
    (fa : α → Nat) (fb : β → Nat) (S : List α) (C : List β)
    (hS : (S.map fa).Nodup) (hC : (C.map fb).Nodup) :
    S.filter (fun a => !((matchFold find S C).1.any (fun p => fa p.1 == fa a)))
        = (matchFold find S C).2.1 ∧
    C.filter (fun c => !((matchFold find S C).1.any (fun p => fb p.2 == fb c)))
        = (matchFold find S C).2.2 := by
  have hSnd : S.Nodup := hS.of_map
  have hCnd : C.Nodup := hC.of_map
  constructor
  · rw [matchFold_us_filter S C hSnd]
    apply List.filter_congr
    intro a ha
    by_cases hmem : a ∈ (matchFold find S C).1.map Prod.fst
    · rcases List.mem_map.mp hmem with ⟨p, hp, hpe⟩
      have hany : (matchFold find S C).1.any (fun q => fa q.1 == fa a) = true :=
        List.any_eq_true.mpr ⟨p, hp, by simp [hpe]⟩
      rw [hany, decide_eq_false (not_not_intro hmem)]
      rfl
    · have hany : (matchFold find S C).1.any (fun q => fa q.1 == fa a) = false := by
        rw [List.any_eq_false]
        intro p hp hq
        have hid : fa p.1 = fa a := by exact eq_of_beq hq
        have hp1 : p.1 ∈ S := matchFold_pairs_fst_mem S C p hp
        have : p.1 = a := List.inj_on_of_nodup_map hS hp1 ha hid
        exact hmem (List.mem_map.mpr ⟨p, hp, this⟩)
      rw [hany, decide_eq_true hmem]
      rfl
  · rw [matchFold_uc_filter hrm S C hCnd]
    apply List.filter_congr
    intro c hc
    by_cases hmem : c ∈ (matchFold find S C).1.map Prod.snd
    · rcases List.mem_map.mp hmem with ⟨p, hp, hpe⟩
      have hany : (matchFold find S C).1.any (fun q => fb q.2 == fb c) = true :=
        List.any_eq_true.mpr ⟨p, hp, by simp [hpe]⟩
      rw [hany, decide_eq_false (not_not_intro hmem)]
      rfl
    · have hany : (matchFold find S C).1.any (fun q => fb q.2 == fb c) = false := by
        rw [List.any_eq_false]
        intro p hp hq
        have hid : fb p.2 = fb c := by exact eq_of_beq hq
        have hp2 : p.2 ∈ C := matchFold_pairs_snd_mem hs hpk S C p hp
        have : p.2 = c := List.inj_on_of_nodup_map hC hp2 hc hid
        exact hmem (List.mem_map.mpr ⟨p, hp, this⟩)
      rw [hany, decide_eq_true hmem]
      rfl

lemma filter_not_any_append {γ δ : Type} (L : List γ) (A B : List δ)
    (r : γ → δ → Bool) :
    L.filter (fun x => !((A ++ B).any (fun m => r x m)))
      = (L.filter (fun x => !(A.any (fun m => r x m)))).filter
          (fun x => !(B.any (fun m => r x m))) := by
  rw [List.filter_filter]
  apply List.filter_congr
  intro x _
  rw [List.any_append, Bool.not_or]
  exact Bool.and_comm _ _

lemma filter_swap {γ : Type} (L : List γ) (p q : γ → Bool) :
    (L.filter p).filter q = (L.filter q).filter p := by
  rw [List.filter_filter, List.filter_filter]
  apply List.filter_congr
  intro x _
  exact Bool.and_comm _ _

lemma newRows_any_stripe (P : List (StripeTx × CashTx)) (x : StripeTx) :
    ((P.map (fun p => MTRow.mk 2 p.1.id p.2.id)).any fun m => m.stripe_id == x.id)
      = P.any fun p => p.1.id == x.id := by
  induction P with
  | nil => rfl
  | cons h t ih => simp only [List.map_cons, List.any_cons, ih]

lemma newRows_any_cash (P : List (StripeTx × CashTx)) (x : CashTx) :
    ((P.map (fun p => MTRow.mk 2 p.1.id p.2.id)).any fun m => m.cashbook_id == x.id)
      = P.any fun p => p.2.id == x.id := by
  induction P with
  | nil => rfl
  | cons h t ih => simp only [List.map_cons, List.any_cons, ih]

/-- Re-running Stage 2 immediately afterwards on unchanged input records
no additional matched rows (distinct ids assumed). -/
lemma runStage2_rerun (current : String) (S : List StripeTx) (C : List CashTx)
    (db : RDB) (hS : (S.map StripeTx.id).Nodup) (hC : (C.map CashTx.id).Nodup) :
    (runStage2 current S C (runStage2 current S C db).1).2 = [] := by
  simp only [runStage2, p2Run]
  rw [filter_not_any_append S db.mt _ (fun s m => m.stripe_id == s.id)]
  rw [filter_not_any_append C db.mt _ (fun c m => m.cashbook_id == c.id)]
  rw [filter_swap (S.filter fun s => !(db.mt.any fun m => m.stripe_id == s.id))]
  have hS1nd : (((S.filter fun s => !(db.mt.any fun m => m.stripe_id == s.id)).filter
      (fun s => !(s.type == TxType.paymentFailureRefund))).map StripeTx.id).Nodup :=
    hS.sublist (((List.filter_sublist _).trans (List.filter_sublist _)).map _)
  have hucnd : ((C.filter fun c => !(db.mt.any fun m => m.cashbook_id == c.id)).map
      CashTx.id).Nodup :=
    hC.sublist ((List.filter_sublist _).map _)
  have hid := matchFold_idfilter (find2_shrinks current) (find2_picks current)
    (find2_removes current) StripeTx.id CashTx.id
    ((S.filter fun s => !(db.mt.any fun m => m.stripe_id == s.id)).filter
      (fun s => !(s.type == TxType.paymentFailureRefund)))
    (C.filter fun c => !(db.mt.any fun m => m.cashbook_id == c.id))
    hS1nd hucnd
  have hSeq : ((S.filter fun s => !(db.mt.any fun m => m.stripe_id == s.id)).filter
        (fun s => !(s.type == TxType.paymentFailureRefund))).filter
        (fun s => !((((matchFold (find2 current)
            ((S.filter fun s => !(db.mt.any fun m => m.stripe_id == s.id)).filter
              (fun s => !(s.type == TxType.paymentFailureRefund)))
            (C.filter fun c => !(db.mt.any fun m => m.cashbook_id == c.id))).1.map
            (fun p => MTRow.mk 2 p.1.id p.2.id)).any (fun m => m.stripe_id == s.id))))
      = (matchFold (find2 current)
          ((S.filter fun s => !(db.mt.any fun m => m.stripe_id == s.id)).filter
            (fun s => !(s.type == TxType.paymentFailureRefund)))
          (C.filter fun c => !(db.mt.any fun m => m.cashbook_id == c.id))).2.1 := by
    rw [show ∀ L : List StripeTx, ∀ P : List (StripeTx × CashTx),
        L.filter (fun s => !((P.map (fun p => MTRow.mk 2 p.1.id p.2.id)).any
          (fun m => m.stripe_id == s.id)))
        = L.filter (fun s => !(P.any (fun p => p.1.id == s.id)))
      from fun L P => List.filter_congr (fun x _ => by rw [newRows_any_stripe])]
    exact hid.1
  have hCeq : (C.filter fun c => !(db.mt.any fun m => m.cashbook_id == c.id)).filter
        (fun c => !((((matchFold (find2 current)
            ((S.filter fun s => !(db.mt.any fun m => m.stripe_id == s.id)).filter
              (fun s => !(s.type == TxType.paymentFailureRefund)))
            (C.filter fun c => !(db.mt.any fun m => m.cashbook_id == c.id))).1.map
            (fun p => MTRow.mk 2 p.1.id p.2.id)).any (fun m => m.cashbook_id == c.id))))
      = (matchFold (find2 current)
          ((S.filter fun s => !(db.mt.any fun m => m.stripe_id == s.id)).filter
            (fun s => !(s.type == TxType.paymentFailureRefund)))
          (C.filter fun c => !(db.mt.any fun m => m.cashbook_id == c.id))).2.2 := by
    rw [show ∀ L : List CashTx, ∀ P : List (StripeTx × CashTx),
        L.filter (fun c => !((P.map (fun p => MTRow.mk 2 p.1.id p.2.id)).any
          (fun m => m.cashbook_id == c.id)))
        = L.filter (fun c => !(P.any (fun p => p.2.id == c.id)))
      from fun L P => List.filter_congr (fun x _ => by rw [newRows_any_cash])]
    exact hid.2
  rw [hSeq, hCeq]
  rw [matchFold_rerun (find2_shrinks current) (find2_mono current)]
  rfl

/-! ### Claim theorems for stage re-entrancy (C3) -/

/-- Counterexample to C3 as stated: Stage 2 has no cached-result guard,
so re-invoking it on unchanged input appends a second Process-2 summary
row in the same (job, entity) scope. -/
theorem C3_counterexample :
    ((runStage2 "cur" [] []
        (runStage2 "cur" [] [] (runStage1 [] [] ⟨[], []⟩).1).1).1).summaries
      = [1, 2, 2] ∧
    (((runStage2 "cur" [] []
        (runStage2 "cur" [] [] (runStage1 [] [] ⟨[], []⟩).1).1).1).summaries.count 2
      = 2) := by
  exact ⟨rfl, rfl⟩

/-- C3 amended: Stage 1's guard on existing Process-1 rows returns the
previously computed rows and writes nothing; a Stage-2 re-invocation on
unchanged input records no additional matched rows (distinct ids
assumed), and Stage 3 records none ever — but Stages 2 and 3 append a
fresh summary row on every invocation, so a re-run does create a second
summary row for those stages. -/
theorem C3_amended_stage_reentrancy (current : String)
    (S : List StripeTx) (C : List CashTx) (db : RDB)
    (hS : (S.map StripeTx.id).Nodup) (hC : (C.map CashTx.id).Nodup) :
    (stage1Existing db ≠ [] → runStage1 S C db = (db, stage1Existing db)) ∧
    ((runStage2 current S C (runStage2 current S C db).1).2 = [] ∧
      (runStage2 current S C db).1.mt = db.mt ++ (runStage2 current S C db).2 ∧
      (runStage2 current S C db).1.summaries = db.summaries ++ [2] ∧
      (runStage2 current S C (runStage2 current S C db).1).1.summaries
        = db.summaries ++ [2] ++ [2]) ∧
    ((runStage3 current S C db).1.mt = db.mt ∧
      (runStage3 current S C db).1.summaries = db.summaries ++ [3]) := by
  refine ⟨?_, ⟨runStage2_rerun current S C db hS hC, rfl, rfl, rfl⟩, rfl, rfl⟩
  intro hne
  rw [runStage1, if_pos hne]

/-- Witness for C3's amended theorem: empty inputs, a database that
already holds one Process-1 matched row and its Process-1 summary. -/
theorem C3_amended_stage_reentrancy_witness :
    stage1Existing ⟨[⟨1, 5, 7⟩], [1]⟩ ≠ [] ∧
    runStage1 [] [] ⟨[⟨1, 5, 7⟩], [1]⟩
      = (⟨[⟨1, 5, 7⟩], [1]⟩, stage1Existing ⟨[⟨1, 5, 7⟩], [1]⟩) ∧
    (runStage2 "cur" [] [] (runStage2 "cur" [] [] ⟨[⟨1, 5, 7⟩], [1]⟩).1).2 = [] ∧
    (runStage2 "cur" [] [] (⟨[⟨1, 5, 7⟩], [1]⟩ : RDB)).1.summaries = [1] ++ [2] ∧
    (runStage3 "cur" [] [] (⟨[⟨1, 5, 7⟩], [1]⟩ : RDB)).1.summaries = [1] ++ [3] := by
  have hne : stage1Existing ⟨[⟨1, 5, 7⟩], [1]⟩ ≠ [] := by decide
  have h := C3_amended_stage_reentrancy "cur" [] [] ⟨[⟨1, 5, 7⟩], [1]⟩
    (by decide) (by decide)
  exact ⟨hne, h.1 hne, h.2.1.1, h.2.1.2.2.1, h.2.2.2⟩

end Reconcile
